import Mathlib

/-!
Verification of the gemstash cache (src/gemstash.py) against its
natural-language specification.

Modelling conventions for the shallow embedding:

* Python strings and byte strings are modelled as `List Char` (`PyStr`).
  The only byte strings that occur are UTF-8 encodings of strings that are
  immediately decoded again, so `encode`/`decode` are modelled as the
  identity.
* `datetime` values are modelled as seconds on a single absolute time axis
  (`Nat`); `datetime.datetime.now()` is passed in as an explicit `now`
  argument, observed once per operation; `datetime.utcfromtimestamp(t)` is
  the point `t` on that axis; `now + timedelta(seconds=t)` is `now + t`.
* `uuid.uuid4()` is modelled as drawing from a supply of fresh identifiers:
  the store state carries a counter `nextId`, and each `set` stores the
  current counter value and increments it.  This captures exactly the
  property the code relies on: each generated token differs from every
  token generated before.  The supply starts at 1, reflecting that a random
  uuid4 is (with certainty, for the model) never the falsy all-zero uuid.
* Python `int` is `Int` (arbitrary precision), Python `str(n)`/`int(s)` are
  implemented below over decimal digit lists.
* Python floats appear only through their decimal literal behaviour
  (`str(f)`, `float(s)`, truthiness): they are modelled as canonical
  decimal forms (sign, integer part, fraction digits), with `float(s)`
  parsing the `[sign] digits [. digits]` fragment of Python float syntax,
  which covers every string the source ever passes to `float`.  Negative
  zero is merged with zero.
* Exceptions are modelled by the result type `PyRes`; operations return
  their result together with the post-state, so state changes that happen
  before a raise (e.g. a lazy-expiry delete) are retained.
-/

set_option maxRecDepth 4000

/-- Python strings (and the UTF-8 byte strings derived from them). -/
abbrev PyStr := List Char

/-- The decimal digit character for `d` (`0`–`9`). -/
def digChar (d : Nat) : Char := Char.ofNat (48 + d)

/-- Inverse of `digChar`: the digit value of a character, if it is one. -/
def charDig (c : Char) : Option Nat :=
  if 48 ≤ c.toNat ∧ c.toNat ≤ 57 then some (c.toNat - 48) else none

/-- Read a character list as a digit list; `none` if any character is not a
decimal digit. -/
def digsOfChars : PyStr → Option (List Nat)
  | [] => some []
  | c :: cs =>
    match charDig c, digsOfChars cs with
    | some d, some ds => some (d :: ds)
    | _, _ => none

/-- Value of a digit list, most significant digit first. -/
def digsVal (l : List Nat) : Nat := l.foldl (fun a d => 10 * a + d) 0

/-- Digits of `n`, most significant first, by repeated division; the fuel
argument (any bound on `n`) makes the recursion structural, so that the
kernel can evaluate it. -/
def natToDigsRec (fuel n : Nat) : List Nat :=
  match fuel with
  | 0 => []
  | fuel + 1 => if n = 0 then [] else natToDigsRec fuel (n / 10) ++ [n % 10]

/-- Decimal digits of `n`, most significant first; `[0]` for `0` (Python
`str(0) = "0"`). -/
def natToDigs (n : Nat) : List Nat :=
  if n = 0 then [0] else natToDigsRec n n

/-- Python `str` of a natural number. -/
def natToStr (n : Nat) : PyStr := (natToDigs n).map digChar

/-- Python `str` of an integer. -/
def intStr (n : Int) : PyStr :=
  if n < 0 then '-' :: natToStr n.natAbs else natToStr n.natAbs

/-- Nonempty all-digit parse (the unsigned core of Python `int(s)`). -/
def parseDigs (cs : PyStr) : Option Nat :=
  if cs = [] then none else (digsOfChars cs).map digsVal

/-- Python `int(s)` restricted to `[-] digits`, the fragment the source
feeds it (decimal text with an optional leading minus; anything else is a
`ValueError`, here `none`). -/
def strToInt (cs : PyStr) : Option Int :=
  match cs with
  | [] => none
  | c :: cs' =>
    if c = '-' then (parseDigs cs').map (fun n => -(n : Int))
    else (parseDigs (c :: cs')).map (fun n => (n : Int))

theorem digsVal_foldl (l : List Nat) (a : Nat) :
    l.foldl (fun x d => 10 * x + d) a = a * 10 ^ l.length + digsVal l := by
  induction l generalizing a with
  | nil => simp [digsVal]
  | cons c l ih =>
    simp only [List.foldl_cons, List.length_cons, digsVal]
    rw [ih (10 * a + c), ih (10 * 0 + c)]
    ring

theorem digsVal_append (a b : List Nat) :
    digsVal (a ++ b) = digsVal a * 10 ^ b.length + digsVal b := by
  simp only [digsVal, List.foldl_append]
  rw [digsVal_foldl b (List.foldl (fun x d => 10 * x + d) 0 a)]
  rfl

theorem digsVal_natToDigsRec (fuel n : Nat) (h : n ≤ fuel) :
    digsVal (natToDigsRec fuel n) = n := by
  induction fuel generalizing n with
  | zero =>
    have h0 : n = 0 := by omega
    subst h0
    simp [natToDigsRec, digsVal]
  | succ fuel ih =>
    rw [natToDigsRec]
    by_cases h0 : n = 0
    · subst h0; simp [digsVal]
    · rw [if_neg h0, digsVal_append]
      have hlt : n / 10 < n := Nat.div_lt_self (by omega) (by norm_num)
      rw [ih (n / 10) (by omega)]
      have hv : digsVal [n % 10] = n % 10 := by simp [digsVal]
      rw [hv]
      simp only [List.length_singleton, pow_one]
      omega

theorem digsVal_natToDigs (n : Nat) : digsVal (natToDigs n) = n := by
  by_cases h : n = 0
  · subst h; simp [natToDigs, digsVal]
  · rw [natToDigs, if_neg h, digsVal_natToDigsRec n n le_rfl]

theorem natToDigs_ne_nil (n : Nat) : natToDigs n ≠ [] := by
  by_cases h : n = 0
  · subst h; simp [natToDigs]
  · rw [natToDigs, if_neg h]
    match hf : n with
    | m + 1 =>
      rw [natToDigsRec, if_neg h]
      simp

theorem natToDigsRec_lt (fuel : Nat) : ∀ n d, d ∈ natToDigsRec fuel n → d < 10 := by
  induction fuel with
  | zero => intro n d hd; simp [natToDigsRec] at hd
  | succ fuel ih =>
    intro n d hd
    rw [natToDigsRec] at hd
    by_cases h0 : n = 0
    · rw [if_pos h0] at hd; simp at hd
    · rw [if_neg h0] at hd
      rcases List.mem_append.mp hd with h | h
      · exact ih (n / 10) d h
      · simp at h; omega

theorem natToDigs_lt (n : Nat) : ∀ d ∈ natToDigs n, d < 10 := by
  intro d hd
  by_cases h : n = 0
  · subst h; simp [natToDigs] at hd; omega
  · rw [natToDigs, if_neg h] at hd
    exact natToDigsRec_lt n n d hd

theorem charDig_digChar (d : Nat) (hd : d < 10) :
    charDig (digChar d) = some d := by
  interval_cases d <;> decide

theorem digChar_ne_dash (d : Nat) (hd : d < 10) : digChar d ≠ '-' := by
  interval_cases d <;> decide

theorem digChar_ne_dot (d : Nat) (hd : d < 10) : digChar d ≠ '.' := by
  interval_cases d <;> decide

theorem digsOfChars_map (l : List Nat) (hl : ∀ d ∈ l, d < 10) :
    digsOfChars (l.map digChar) = some l := by
  induction l with
  | nil => rfl
  | cons c l ih =>
    have hc : c < 10 := hl c (by simp)
    simp only [List.map_cons, digsOfChars, charDig_digChar c hc,
      ih (fun d hd => hl d (by simp [hd]))]

theorem parseDigs_map (l : List Nat) (hne : l ≠ []) (hl : ∀ d ∈ l, d < 10) :
    parseDigs (l.map digChar) = some (digsVal l) := by
  rw [parseDigs, if_neg (by simpa using hne), digsOfChars_map l hl]
  rfl

theorem strToInt_map_digChar (l : List Nat) (hne : l ≠ []) (hlt : ∀ d ∈ l, d < 10) :
    strToInt (l.map digChar) = some ((digsVal l : Nat) : Int) := by
  match l with
  | [] => exact absurd rfl hne
  | d :: ds =>
    have hd : d < 10 := hlt d (by simp)
    rw [List.map_cons, strToInt, if_neg (digChar_ne_dash d hd), ← List.map_cons,
      parseDigs_map _ hne hlt]
    rfl

theorem strToInt_natToStr (n : Nat) : strToInt (natToStr n) = some (n : Int) := by
  rw [natToStr, strToInt_map_digChar _ (natToDigs_ne_nil n) (natToDigs_lt n),
    digsVal_natToDigs]

theorem strToInt_intStr (n : Int) : strToInt (intStr n) = some n := by
  by_cases h : n < 0
  · rw [intStr, if_pos h, strToInt, if_pos rfl, natToStr,
      parseDigs_map _ (natToDigs_ne_nil _) (natToDigs_lt _), digsVal_natToDigs]
    have hn : -((n.natAbs : Nat) : Int) = n := by omega
    show some (-((n.natAbs : Nat) : Int)) = some n
    rw [hn]
  · rw [intStr, if_neg h, strToInt_natToStr]
    congr 1
    omega

theorem strToInt_natToStr_append (a b : Nat) :
    strToInt (natToStr a ++ natToStr b) =
      some ((a * 10 ^ (natToDigs b).length + b : Nat) : Int) := by
  have hne : natToDigs a ++ natToDigs b ≠ [] := by
    simp [natToDigs_ne_nil a]
  have hlt : ∀ d ∈ natToDigs a ++ natToDigs b, d < 10 := by
    intro d hd
    rcases List.mem_append.mp hd with h | h
    · exact natToDigs_lt a d h
    · exact natToDigs_lt b d h
  have hcat : natToStr a ++ natToStr b = (natToDigs a ++ natToDigs b).map digChar := by
    simp [natToStr]
  rw [hcat, strToInt_map_digChar _ hne hlt, digsVal_append,
    digsVal_natToDigs, digsVal_natToDigs]

/-- A Python float, as it behaves through `str`/`float`/truthiness in the
source: a canonical decimal form `[-] ip . fp` (`repr` of a float is its
shortest decimal form; the canonicity conditions are stated by
`PyFloat.Canon`).  Negative zero is merged with zero. -/
structure PyFloat where
  neg : Bool
  ip : Nat
  fp : List Nat
deriving DecidableEq, Repr

/-- Canonicity of a decimal form, matching what Python `repr` produces:
fraction digits are decimal digits, nonempty, with no trailing zero (except
a lone `0`), and zero is not negative. -/
def PyFloat.Canon (f : PyFloat) : Prop :=
  (∀ d ∈ f.fp, d < 10) ∧ f.fp ≠ [] ∧ (f.fp = [0] ∨ f.fp.getLast? ≠ some 0) ∧
    (f.neg = true → ¬(f.ip = 0 ∧ f.fp = [0]))

instance (f : PyFloat) : Decidable f.Canon := by
  unfold PyFloat.Canon; infer_instance

/-- Python `str` of a float (its `repr`, e.g. `"12.34"`, `"1.0"`,
`"-0.5"`). -/
def floatStr (f : PyFloat) : PyStr :=
  (if f.neg then ['-'] else []) ++ natToStr f.ip ++ '.' :: f.fp.map digChar

/-- Drop trailing zeros of a fraction-digit list. -/
def stripTrailingZeros (l : List Nat) : List Nat :=
  (l.reverse.dropWhile (fun d => d = 0)).reverse

/-- Normalize parsed fraction digits to canonical form (`float("1.50")` is
`1.5`, `float("5.")` is `5.0`). -/
def normFrac (l : List Nat) : List Nat :=
  if stripTrailingZeros l = [] then [0] else stripTrailingZeros l

/-- Build a float from parsed parts, merging negative zero with zero. -/
def mkFloat (neg : Bool) (ip : Nat) (fp : List Nat) : PyFloat :=
  ⟨neg && !(decide (ip = 0) && decide (fp = [0])), ip, fp⟩

/-- Split a character list at its first `'.'`, if any. -/
def breakDot : PyStr → PyStr × Option PyStr
  | [] => ([], none)
  | c :: cs =>
    if c = '.' then ([], some cs)
    else
      let p := breakDot cs
      (c :: p.1, p.2)

/-- Combine the parts around the first dot (if any) into a float: both
parts must be all digits, with at least one digit overall.  A second dot or
any non-digit character fails (`charDig '.' = none`), as `float` does with
a `ValueError`. -/
def floatParts (neg : Bool) (ipcs : PyStr) : Option PyStr → Option PyFloat
  | none =>
    if ipcs = [] then none
    else (digsOfChars ipcs).map fun ipds => mkFloat neg (digsVal ipds) [0]
  | some fpcs =>
    if ipcs = [] ∧ fpcs = [] then none
    else
      (digsOfChars ipcs).bind fun ipds =>
        (digsOfChars fpcs).map fun fpds => mkFloat neg (digsVal ipds) (normFrac fpds)

/-- The unsigned core of Python `float(s)` on the `digits [. digits]`
fragment. -/
def floatCore (neg : Bool) (cs : PyStr) : Option PyFloat :=
  floatParts neg (breakDot cs).1 (breakDot cs).2

/-- Python `float(s)` restricted to `[-] digits [. digits]`, the fragment
the source feeds it; anything else is a `ValueError`, here `none`. -/
def strToFloat (cs : PyStr) : Option PyFloat :=
  match cs with
  | [] => none
  | c :: cs' =>
    if c = '-' then floatCore true cs'
    else floatCore false (c :: cs')

theorem breakDot_no_dot (l : List Nat) (hl : ∀ d ∈ l, d < 10) :
    breakDot (l.map digChar) = (l.map digChar, none) := by
  induction l with
  | nil => rfl
  | cons d ds ih =>
    have hd : d < 10 := hl d (by simp)
    rw [List.map_cons, breakDot, if_neg (digChar_ne_dot d hd),
      ih (fun e he => hl e (by simp [he]))]

theorem breakDot_append_dot (a b : PyStr) (ha : '.' ∉ a) :
    breakDot (a ++ '.' :: b) = (a, some b) := by
  induction a with
  | nil => simp [breakDot]
  | cons c cs ih =>
    have hc : c ≠ '.' := fun h => ha (by simp [h])
    rw [List.cons_append, breakDot, if_neg hc,
      ih (fun h => ha (List.mem_cons_of_mem c h))]

theorem dot_not_mem_map_digChar (l : List Nat) (hl : ∀ d ∈ l, d < 10) :
    '.' ∉ l.map digChar := by
  intro hmem
  rcases List.mem_map.mp hmem with ⟨d, hd, he⟩
  exact digChar_ne_dot d (hl d hd) he

theorem stripTrailingZeros_eq_self (l : List Nat) (hl : l.getLast? ≠ some 0) :
    stripTrailingZeros l = l := by
  rw [stripTrailingZeros]
  match hr : l.reverse with
  | [] =>
    have : l = [] := by simpa using congrArg List.reverse hr
    simp [this]
  | a :: rest =>
    have hh : l.getLast? = some a := by
      rw [← List.head?_reverse, hr]; rfl
    have ha : ¬(a = 0) := fun h => hl (by rw [hh, h])
    rw [List.dropWhile_cons, if_neg (by simpa using ha), ← hr, List.reverse_reverse]

theorem normFrac_canon (f : PyFloat) (hf : f.Canon) : normFrac f.fp = f.fp := by
  obtain ⟨_, hne, hcanon, _⟩ := hf
  rcases hcanon with h0 | hlast
  · rw [h0]; rfl
  · rw [normFrac, stripTrailingZeros_eq_self _ hlast, if_neg hne]

theorem mkFloat_canon (f : PyFloat) (hf : f.Canon) :
    mkFloat f.neg f.ip f.fp = f := by
  have hb : (f.neg && !(decide (f.ip = 0) && decide (f.fp = [0]))) = f.neg := by
    by_cases h : f.neg = true
    · have hnz : ¬(f.ip = 0 ∧ f.fp = [0]) := hf.2.2.2 h
      by_cases h0 : f.ip = 0
      · have h1 : f.fp ≠ [0] := fun hc => hnz ⟨h0, hc⟩
        simp [h1]
      · simp [h0]
    · have h2 : f.neg = false := by revert h; cases f.neg <;> simp
      rw [h2]
      rfl
  rw [mkFloat, hb]

theorem floatCore_floatStr_core (f : PyFloat) (hf : f.Canon) :
    floatCore f.neg (natToStr f.ip ++ '.' :: f.fp.map digChar) = some f := by
  have hdig : ∀ d ∈ f.fp, d < 10 := hf.1
  have hbd : breakDot (natToStr f.ip ++ '.' :: f.fp.map digChar) =
      (natToStr f.ip, some (f.fp.map digChar)) := by
    rw [natToStr]
    exact breakDot_append_dot _ _ (dot_not_mem_map_digChar _ (natToDigs_lt f.ip))
  have hipne : natToStr f.ip ≠ [] := by
    simp [natToStr, natToDigs_ne_nil f.ip]
  rw [floatCore, hbd]
  show floatParts f.neg (natToStr f.ip) (some (f.fp.map digChar)) = some f
  simp only [floatParts]
  rw [if_neg (fun hc => hipne hc.1), natToStr,
    digsOfChars_map _ (natToDigs_lt f.ip), digsOfChars_map _ hdig]
  simp [digsVal_natToDigs, normFrac_canon f hf, mkFloat_canon f hf]

theorem strToFloat_floatStr (f : PyFloat) (hf : f.Canon) :
    strToFloat (floatStr f) = some f := by
  have hcore := floatCore_floatStr_core f hf
  rw [floatStr]
  cases hneg : f.neg with
  | true =>
    have hx : (if (true : Bool) then ['-'] else ([] : PyStr)) ++
        natToStr f.ip ++ '.' :: f.fp.map digChar =
        '-' :: (natToStr f.ip ++ '.' :: f.fp.map digChar) := by simp
    rw [hx]
    simp only [strToFloat]
    rw [hneg] at hcore
    simpa using hcore
  | false =>
    have hx : (if (false : Bool) then ['-'] else ([] : PyStr)) ++
        natToStr f.ip ++ '.' :: f.fp.map digChar =
        natToStr f.ip ++ '.' :: f.fp.map digChar := by simp
    rw [hx]
    have hne := natToDigs_ne_nil f.ip
    have hlt := natToDigs_lt f.ip
    match hnd : natToDigs f.ip with
    | [] => exact absurd hnd hne
    | d :: ds =>
      have hd : d < 10 := by rw [hnd] at hlt; exact hlt d (by simp)
      have hshape : natToStr f.ip ++ '.' :: f.fp.map digChar =
          digChar d :: (ds.map digChar ++ '.' :: f.fp.map digChar) := by
        rw [natToStr, hnd]; rfl
      rw [hshape]
      simp only [strToFloat]
      rw [if_neg (digChar_ne_dash d hd), ← hshape]
      rw [hneg] at hcore
      exact hcore

/-- A stored Python value, tagged by the type discrimination the source
performs (`isinstance(..., str/int/float)`, with everything else opaque).
For opaque/compound values only their truthiness and their `str` rendering
are ever observed by the source, so `other` carries exactly those. -/
inductive PyVal where
  | text (s : PyStr)
  | intg (n : Int)
  | flt (f : PyFloat)
  | other (truthy : Bool) (r : PyStr)
deriving DecidableEq, Repr

/-- Python falsiness (`not value`) of a stored value: empty string, zero
int, zero float, or a falsy opaque value (e.g. an empty dict). -/
def PyVal.falsy : PyVal → Bool
  | .text s => s.isEmpty
  | .intg n => n == 0
  | .flt f => f.ip == 0 && f.fp.all (fun d => d == 0)
  | .other t _ => !t

/-- Python `str(value)`. -/
def pyStr : PyVal → PyStr
  | .text s => s
  | .intg n => intStr n
  | .flt f => floatStr f
  | .other _ r => r

/-- A Python object returned by a store operation, carrying its runtime
type: `cas` returns the bool `True` on success but the *int* `0` on a stale
token, while the other operations fail with the bool `False`. -/
inductive PyObj where
  | obool (b : Bool)
  | oint (n : Int)
deriving DecidableEq, Repr

/-- A raised Python exception (`ValueError(msg)` is the only kind the core
raises). -/
inductive PyErr where
  | valueError (msg : String)
deriving DecidableEq, Repr

/-- Result of an operation that may raise: normal value or exception. -/
inductive PyRes (α : Type) where
  | ok (a : α)
  | err (e : PyErr)
deriving DecidableEq, Repr

/-- `Stash.CachedItem = namedtuple('CachedItem', ['value', 'expires', 'cas_id'])`. -/
structure CachedItem where
  value : PyVal
  expires : Option Nat
  cas_id : Nat
deriving DecidableEq, Repr

/-- The state of a `Stash`: its `cache` dict plus the supply of fresh cas
tokens modelling `uuid.uuid4()` (see the header comment). -/
structure StashState where
  cache : String → Option CachedItem
  nextId : Nat

/-- `d[key] = item` on a dict modelled as a function. -/
def mapSet {α : Type} (m : String → Option α) (key : String) (item : α) :
    String → Option α :=
  fun k => if k = key then some item else m k

/-- `del d[key]` on a dict modelled as a function. -/
def mapDel {α : Type} (m : String → Option α) (key : String) :
    String → Option α :=
  fun k => if k = key then none else m k

/-- The TTL interpretation rule, translated from the `if/elif/else` chain
that `Stash.set` inlines (lines 115–121) and `MimicStash._expires`
(lines 310–318) factors out; the two chains are textually identical.
`time : Option Nat` is the `time` parameter: `none` for Python `None`
(`update`'s default), otherwise a nonnegative second count.
`if time and time > 60*60*24*30` reads: `time` truthy (non-`None`,
nonzero) and above the 30-day threshold → absolute timestamp;
`elif (not time) or time == 0` → never expires; `else` → `now + time`. -/
def ttlExpires (now : Nat) (time : Option Nat) : Option Nat :=
  match time with
  | none => none
  | some t =>
    if t ≠ 0 ∧ t > 60 * 60 * 24 * 30 then some t
    else if t = 0 then none
    else some (now + t)

namespace Stash

/-- `Stash.__getitem__` (lines 61–70): absent → `None`; expired (strictly
before `now`) → delete and `None`; else the `(value, cas_id)` pair. -/
def getItem (st : StashState) (now : Nat) (key : String) :
    Option (PyVal × Nat) × StashState :=
  match st.cache key with
  | none => (none, st)
  | some item =>
    match item.expires with
    | some e =>
      if e < now then (none, { st with cache := mapDel st.cache key })
      else (some (item.value, item.cas_id), st)
    | none => (some (item.value, item.cas_id), st)

/-- `Stash.__delitem__` (lines 75–80). -/
def delItem (st : StashState) (key : String) : StashState :=
  { st with cache := mapDel st.cache key }

/-- `Stash.set` (lines 113–123): unconditional overwrite, fresh cas token,
expiry from the TTL rule, returns `True`. -/
def set (st : StashState) (now : Nat) (key : String) (value : PyVal)
    (time : Option Nat) : Bool × StashState :=
  (true,
    { cache := mapSet st.cache key ⟨value, ttlExpires now time, st.nextId⟩,
      nextId := st.nextId + 1 })

/-- `Stash.update` (lines 106–111): `False` if the key is not in the raw
dict, else delegate to `set`. -/
def update (st : StashState) (now : Nat) (key : String) (value : PyVal)
    (time : Option Nat) : Bool × StashState :=
  match st.cache key with
  | none => (false, st)
  | some _ => set st now key value time

/-- `Stash.flush` (lines 125–127). -/
def flush (st : StashState) : StashState :=
  { st with cache := fun _ => none }

/-- `Stash.incr` (lines 88–104).  The `try/except TypeError` around the
tuple unpacking turns the `None` of an absent key into `value = None`,
which the falsy test then sends to `return None`.  The final
`return int(value)` re-reads the decimal text in the str branch; by
`strToInt_intStr` that is `n + delta`, which is what is returned here. -/
def incr (st : StashState) (now : Nat) (key : String) (delta : Int) :
    PyRes (Option Int) × StashState :=
  let g := getItem st now key
  match g.1 with
  | none => (.ok none, g.2)
  | some (v, _) =>
    if v.falsy then (.ok none, g.2)
    else
      match v with
      | .text s =>
        match strToInt s with
        | none => (.err (.valueError "invalid literal for int with base 10"), g.2)
        | some n =>
          (.ok (some (n + delta)),
            (update g.2 now key (.text (intStr (n + delta))) none).2)
      | .intg n =>
        (.ok (some (n + delta)),
          (update g.2 now key (.intg (n + delta)) none).2)
      | _ => (.err (.valueError "cannot increment or decrement non-numeric value"), g.2)

/-- `Stash.append` (lines 129–152): read through `__getitem__`, fail on
absent/falsy, then type-directed concatenation; str appends text, int and
float concatenate decimal text and re-parse (raising on parse failure),
anything else fails with `False`. -/
def append (st : StashState) (now : Nat) (key : String) (value : PyVal)
    (time : Option Nat) : PyRes Bool × StashState :=
  let g := getItem st now key
  match g.1 with
  | none => (.ok false, g.2)
  | some (orig, _) =>
    if orig.falsy then (.ok false, g.2)
    else
      match orig with
      | .text s =>
        let r := set g.2 now key (.text (s ++ pyStr value)) time
        (.ok r.1, r.2)
      | .intg n =>
        match strToInt (intStr n ++ pyStr value) with
        | none => (.err (.valueError "cannot append non-numeric value to int"), g.2)
        | some m =>
          let r := set g.2 now key (.intg m) time
          (.ok r.1, r.2)
      | .flt f =>
        match strToFloat (floatStr f ++ pyStr value) with
        | none => (.err (.valueError "cannot append non-numeric value to float"), g.2)
        | some f2 =>
          let r := set g.2 now key (.flt f2) time
          (.ok r.1, r.2)
      | .other _ _ => (.ok false, g.2)

/-- `Stash.prepend` (lines 154–177): mirror image of `append`. -/
def prepend (st : StashState) (now : Nat) (key : String) (value : PyVal)
    (time : Option Nat) : PyRes Bool × StashState :=
  let g := getItem st now key
  match g.1 with
  | none => (.ok false, g.2)
  | some (orig, _) =>
    if orig.falsy then (.ok false, g.2)
    else
      match orig with
      | .text s =>
        let r := set g.2 now key (.text (pyStr value ++ s)) time
        (.ok r.1, r.2)
      | .intg n =>
        match strToInt (pyStr value ++ intStr n) with
        | none => (.err (.valueError "cannot prepend non-numeric value to int"), g.2)
        | some m =>
          let r := set g.2 now key (.intg m) time
          (.ok r.1, r.2)
      | .flt f =>
        match strToFloat (pyStr value ++ floatStr f) with
        | none => (.err (.valueError "cannot prepend non-numeric value to float"), g.2)
        | some f2 =>
          let r := set g.2 now key (.flt f2) time
          (.ok r.1, r.2)
      | .other _ _ => (.ok false, g.2)

/-- `Stash.cas` (lines 179–187).  `not cas_id` is true when no token was
supplied (`None`, modelled `none`) or the supplied uuid is the falsy zero
uuid (modelled `some 0`); then or on an absent key `cas` behaves as `set`.
With a real token it sets on a match and returns the int `0` on a
mismatch. -/
def cas (st : StashState) (now : Nat) (key : String) (value : PyVal)
    (time : Option Nat) (cas_id : Option Nat) : PyObj × StashState :=
  match st.cache key, cas_id with
  | none, _ =>
    let r := set st now key value time
    (.obool r.1, r.2)
  | some _, none =>
    let r := set st now key value time
    (.obool r.1, r.2)
  | some item, some t =>
    if t = 0 then
      let r := set st now key value time
      (.obool r.1, r.2)
    else if t = item.cas_id then
      let r := set st now key value time
      (.obool r.1, r.2)
    else (.oint 0, st)

end Stash

/-- The reconstruction closure stored by `MimicStash.set`: the source
stores `lambda x: int(x.decode(...))`, `lambda x: float(x.decode(...))` or
`lambda x: x.decode(...)` depending on the type of the value being set;
here the three possible lambdas are a tag plus `ParseTag.run`. -/
inductive ParseTag where
  | pInt
  | pFloat
  | pText
deriving DecidableEq, Repr

/-- Apply a stored reconstruction closure to stored bytes. -/
def ParseTag.run : ParseTag → PyStr → PyRes PyVal
  | .pInt, s =>
    match strToInt s with
    | some n => .ok (.intg n)
    | none => .err (.valueError "invalid literal for int with base 10")
  | .pFloat, s =>
    match strToFloat s with
    | some f => .ok (.flt f)
    | none => .err (.valueError "could not convert string to float")
  | .pText, s => .ok (.text s)

/-- `MimicStash.CachedItem = namedtuple(..., ['value', 'expires', 'parse',
'cas_id'])`; `value` is the stored byte string. -/
structure MimicItem where
  value : PyStr
  expires : Option Nat
  parse : ParseTag
  cas_id : Nat
deriving DecidableEq, Repr

/-- The state of a `MimicStash` (the constructor's `mimic` flag is stored
but never read, so it is omitted). -/
structure MimicState where
  cache : String → Option MimicItem
  nextId : Nat

namespace MimicStash

/-- `MimicStash.__getitem__` (lines 207–216): like `Stash.__getitem__` but
returning `parse(value)`, whose `ValueError` (if the bytes no longer parse)
propagates. -/
def getItem (st : MimicState) (now : Nat) (key : String) :
    PyRes (Option (PyVal × Nat)) × MimicState :=
  match st.cache key with
  | none => (.ok none, st)
  | some item =>
    match item.expires with
    | some e =>
      if e < now then (.ok none, { st with cache := mapDel st.cache key })
      else
        match item.parse.run item.value with
        | .ok v => (.ok (some (v, item.cas_id)), st)
        | .err er => (.err er, st)
    | none =>
      match item.parse.run item.value with
      | .ok v => (.ok (some (v, item.cas_id)), st)
      | .err er => (.err er, st)

/-- `MimicStash.__delitem__` (lines 221–226). -/
def delItem (st : MimicState) (key : String) : MimicState :=
  { st with cache := mapDel st.cache key }

/-- `MimicStash.set` (lines 259–270): chooses the reconstruction closure
from the runtime type of `value`, stores `str(value).encode("utf_8")`. -/
def set (st : MimicState) (now : Nat) (key : String) (value : PyVal)
    (time : Option Nat) : Bool × MimicState :=
  let ptag : ParseTag :=
    match value with
    | .intg _ => .pInt
    | .flt _ => .pFloat
    | _ => .pText
  (true,
    { cache := mapSet st.cache key ⟨pyStr value, ttlExpires now time, ptag, st.nextId⟩,
      nextId := st.nextId + 1 })

/-- `MimicStash.update` (lines 252–257). -/
def update (st : MimicState) (now : Nat) (key : String) (value : PyVal)
    (time : Option Nat) : Bool × MimicState :=
  match st.cache key with
  | none => (false, st)
  | some _ => set st now key value time

/-- `MimicStash.flush` (lines 272–274). -/
def flush (st : MimicState) : MimicState :=
  { st with cache := fun _ => none }

/-- `MimicStash.incr` (lines 234–250): same logic as `Stash.incr`, but the
read goes through the parsing `__getitem__`, whose `ValueError` propagates
(only `TypeError` is caught). -/
def incr (st : MimicState) (now : Nat) (key : String) (delta : Int) :
    PyRes (Option Int) × MimicState :=
  let g := getItem st now key
  match g.1 with
  | .err er => (.err er, g.2)
  | .ok none => (.ok none, g.2)
  | .ok (some (v, _)) =>
    if v.falsy then (.ok none, g.2)
    else
      match v with
      | .text s =>
        match strToInt s with
        | none => (.err (.valueError "invalid literal for int with base 10"), g.2)
        | some n =>
          (.ok (some (n + delta)),
            (update g.2 now key (.text (intStr (n + delta))) none).2)
      | .intg n =>
        (.ok (some (n + delta)),
          (update g.2 now key (.intg (n + delta)) none).2)
      | _ => (.err (.valueError "cannot increment or decrement non-numeric value"), g.2)

/-- `MimicStash.append` (lines 276–286): reads the raw dict entry (no
expiry or falsiness check), applies the stored parse closure only for the
`isinstance(..., float)` test.  A float entry returns `True` *without
doing anything*; otherwise the new bytes are appended and the entry is
replaced with a fresh token. -/
def append (st : MimicState) (now : Nat) (key : String) (value : PyVal)
    (time : Option Nat) : PyRes Bool × MimicState :=
  match st.cache key with
  | none => (.ok false, st)
  | some item =>
    match item.parse.run item.value with
    | .err er => (.err er, st)
    | .ok pv =>
      match pv with
      | .flt _ => (.ok true, st)
      | _ =>
        (.ok true,
          { cache := mapSet st.cache key
              ⟨item.value ++ pyStr value, ttlExpires now time, item.parse, st.nextId⟩,
            nextId := st.nextId + 1 })

/-- `MimicStash.prepend` (lines 288–298): mirror image of `append`. -/
def prepend (st : MimicState) (now : Nat) (key : String) (value : PyVal)
    (time : Option Nat) : PyRes Bool × MimicState :=
  match st.cache key with
  | none => (.ok false, st)
  | some item =>
    match item.parse.run item.value with
    | .err er => (.err er, st)
    | .ok pv =>
      match pv with
      | .flt _ => (.ok true, st)
      | _ =>
        (.ok true,
          { cache := mapSet st.cache key
              ⟨pyStr value ++ item.value, ttlExpires now time, item.parse, st.nextId⟩,
            nextId := st.nextId + 1 })

/-- `MimicStash.cas` (lines 300–308): textually the same logic as
`Stash.cas`. -/
def cas (st : MimicState) (now : Nat) (key : String) (value : PyVal)
    (time : Option Nat) (cas_id : Option Nat) : PyObj × MimicState :=
  match st.cache key, cas_id with
  | none, _ =>
    let r := set st now key value time
    (.obool r.1, r.2)
  | some _, none =>
    let r := set st now key value time
    (.obool r.1, r.2)
  | some item, some t =>
    if t = 0 then
      let r := set st now key value time
      (.obool r.1, r.2)
    else if t = item.cas_id then
      let r := set st now key value time
      (.obool r.1, r.2)
    else (.oint 0, st)

end MimicStash

/-- A freshly constructed `Stash()` with a fresh token supply. -/
def stashEmpty : StashState := ⟨fun _ => none, 1⟩

/-- A freshly constructed `MimicStash()` with a fresh token supply. -/
def mimicEmpty : MimicState := ⟨fun _ => none, 1⟩

/-- Well-formedness of the token supply: every token in the store was
drawn from the supply, i.e. is below the next fresh identifier.  This
holds for the empty store and is preserved by every operation; it is the
model-level counterpart of "uuid4 never repeats". -/
def TokensFresh (st : StashState) : Prop :=
  ∀ k it, st.cache k = some it → it.cas_id < st.nextId

theorem Stash.getItem_some {st : StashState} {now : Nat} {key : String}
    {v : PyVal} {c : Nat} (h : (Stash.getItem st now key).1 = some (v, c)) :
    (Stash.getItem st now key).2 = st ∧
    ∃ it, st.cache key = some it ∧ it.value = v ∧ it.cas_id = c := by
  rcases hc : st.cache key with - | item
  · simp [Stash.getItem, hc] at h
  · rcases he : item.expires with - | e
    · have h2 : item.value = v ∧ item.cas_id = c := by
        simpa [Stash.getItem, hc, he] using h
      exact ⟨by simp [Stash.getItem, hc, he], item, hc ▸ rfl, h2.1, h2.2⟩
    · by_cases hlt : e < now
      · simp [Stash.getItem, hc, he, hlt] at h
      · have h2 : item.value = v ∧ item.cas_id = c := by
          simpa [Stash.getItem, hc, he, hlt] using h
        exact ⟨by simp [Stash.getItem, hc, he, hlt], item, hc ▸ rfl, h2.1, h2.2⟩

theorem Stash.getItem_subMap (st : StashState) (now : Nat) (key : String) :
    (∀ k it, (Stash.getItem st now key).2.cache k = some it → st.cache k = some it) ∧
    (Stash.getItem st now key).2.nextId = st.nextId := by
  rcases hc : st.cache key with - | item
  · simp [Stash.getItem, hc]
  · rcases he : item.expires with - | e
    · simp [Stash.getItem, hc, he]
    · by_cases hlt : e < now
      · refine ⟨?_, by simp [Stash.getItem, hc, he, hlt]⟩
        intro k it hit
        have h2 : mapDel st.cache key k = some it := by
          simpa [Stash.getItem, hc, he, hlt] using hit
        simp only [mapDel] at h2
        by_cases hk : k = key
        · rw [if_pos hk] at h2; exact absurd h2 (by simp)
        · rw [if_neg hk] at h2; exact h2
      · simp [Stash.getItem, hc, he, hlt]

/-- The TTL interpretation rule as the specification words it: `0` (or
unspecified) → never expire; strictly above `2,592,000` → absolute Unix
timestamp; otherwise → `now + ttl`. -/
def specTtlExpiry (now : Nat) (ttl : Option Nat) : Option Nat :=
  match ttl with
  | none => none
  | some t =>
    if t = 0 then none
    else if t > 2592000 then some t
    else some (now + t)

theorem ttlExpires_eq_spec (now : Nat) (t : Option Nat) :
    ttlExpires now t = specTtlExpiry now t := by
  match t with
  | none => rfl
  | some t =>
    simp only [ttlExpires, specTtlExpiry]
    split_ifs <;> first | rfl | omega

/-- C1: `Set(key, value, ttl)` stores an entry whose expiry follows the
TTL interpretation rule: ttl `0` or unspecified (`None`) → never expires
(`none`); ttl strictly greater than `2,592,000 = 60*60*24*30` → the
absolute timestamp `ttl` itself; otherwise → `now + ttl`; in particular
ttl `2,592,000` exactly falls in the relative branch.  Shown for
`Stash.set`, for `MimicStash.set`, and for the shared rule `ttlExpires`
(the body of `MimicStash._expires`), which coincides with the
specification-side rule `specTtlExpiry` everywhere. -/
theorem spec_c1 :
    (∀ st now key v t,
      (Stash.set st now key v t).2.cache key =
        some ⟨v, specTtlExpiry now t, st.nextId⟩) ∧
    (∀ st now key v t, ∃ ptag,
      (MimicStash.set st now key v t).2.cache key =
        some ⟨pyStr v, specTtlExpiry now t, ptag, st.nextId⟩) ∧
    (∀ now t, ttlExpires now t = specTtlExpiry now t) ∧
    (∀ now, ttlExpires now none = none) ∧
    (∀ now, ttlExpires now (some 0) = none) ∧
    (∀ now t, t > 2592000 → ttlExpires now (some t) = some t) ∧
    (∀ now t, 0 < t → t ≤ 2592000 → ttlExpires now (some t) = some (now + t)) ∧
    (∀ now, ttlExpires now (some 2592000) = some (now + 2592000)) := by
  refine ⟨?_, ?_, ttlExpires_eq_spec, ?_, ?_, ?_, ?_, ?_⟩
  · intro st now key v t
    simp [Stash.set, mapSet, ttlExpires_eq_spec]
  · intro st now key v t
    refine ⟨(match v with | .intg _ => .pInt | .flt _ => .pFloat | _ => .pText), ?_⟩
    simp [MimicStash.set, mapSet, ttlExpires_eq_spec]
  · intro now; rfl
  · intro now; rfl
  · intro now t h
    rw [ttlExpires_eq_spec]
    simp only [specTtlExpiry]
    rw [if_neg (by omega), if_pos h]
  · intro now t h0 h1
    rw [ttlExpires_eq_spec]
    simp only [specTtlExpiry]
    rw [if_neg (by omega), if_neg (by omega)]
  · intro now
    rw [ttlExpires_eq_spec]
    simp only [specTtlExpiry]
    rw [if_neg (by omega), if_neg (by omega)]

/-- C1 witness: the hypothesis-bearing conjuncts instantiated at ttl
`2592001` (absolute) and `2592000` (relative boundary). -/
theorem spec_c1_witness :
    ttlExpires 7 (some 2592001) = some 2592001 ∧
    ttlExpires 7 (some 2592000) = some (7 + 2592000) ∧
    ttlExpires 7 (some 5) = some 12 := by
  refine ⟨spec_c1.2.2.2.2.2.1 7 2592001 (by decide), spec_c1.2.2.2.2.2.2.2 7, ?_⟩
  have h := spec_c1.2.2.2.2.2.2.1 7 5 (by decide) (by decide)
  simpa using h

/-- C3 counterexample: an entry set at time 0 with ttl 5 expires at
instant 5, yet a `Get` performed exactly at `now = 5` returns the value
and leaves the entry in the map — the code deletes only when
`expires < now` holds strictly, so the claim's "at or before" (and its
`now == expires` consequence) is false. -/
theorem spec_c3_cex :
    (Stash.getItem (Stash.set stashEmpty 0 "k" (.text ['v']) (some 5)).2 5 "k").1 =
      some (.text ['v'], 1) ∧
    (Stash.getItem (Stash.set stashEmpty 0 "k" (.text ['v']) (some 5)).2 5 "k").2.cache "k" =
      some ⟨.text ['v'], some 5, 1⟩ := by
  constructor <;> rfl

/-- C3 (amended): lazy expiry compares strictly: `Get` deletes the entry
and returns absent exactly when `expires` is strictly before `now`; a
`Get` at the expiry instant (`now = expires`) or earlier returns the
value and leaves the store unchanged.  Shown for both variants (in the
Mimic variant the surviving entry is then fed to the stored parse
closure, so only the state is asserted in its alive branch). -/
theorem spec_c3_amended :
    (∀ st now key it e, st.cache key = some it → it.expires = some e →
      (e < now →
        (Stash.getItem st now key).1 = none ∧
        (Stash.getItem st now key).2.cache key = none ∧
        ∀ k2, k2 ≠ key → (Stash.getItem st now key).2.cache k2 = st.cache k2) ∧
      (¬ e < now →
        (Stash.getItem st now key).1 = some (it.value, it.cas_id) ∧
        (Stash.getItem st now key).2 = st)) ∧
    (∀ st now key it e, st.cache key = some it → it.expires = some e →
      (e < now →
        (MimicStash.getItem st now key).1 = .ok none ∧
        (MimicStash.getItem st now key).2.cache key = none ∧
        ∀ k2, k2 ≠ key → (MimicStash.getItem st now key).2.cache k2 = st.cache k2) ∧
      (¬ e < now → (MimicStash.getItem st now key).2 = st)) := by
  constructor
  · intro st now key it e hc he
    constructor
    · intro hlt
      refine ⟨?_, ?_, ?_⟩
      · simp [Stash.getItem, hc, he, hlt]
      · simp [Stash.getItem, hc, he, hlt, mapDel]
      · intro k2 hk2
        simp [Stash.getItem, hc, he, hlt, mapDel, hk2]
    · intro hlt
      constructor
      · simp [Stash.getItem, hc, he, hlt]
      · simp [Stash.getItem, hc, he, hlt]
  · intro st now key it e hc he
    constructor
    · intro hlt
      refine ⟨?_, ?_, ?_⟩
      · simp [MimicStash.getItem, hc, he, hlt]
      · simp [MimicStash.getItem, hc, he, hlt, mapDel]
      · intro k2 hk2
        simp [MimicStash.getItem, hc, he, hlt, mapDel, hk2]
    · intro hlt
      rcases hp : it.parse.run it.value with v | er <;>
        simp [MimicStash.getItem, hc, he, hlt, hp]

/-- C3 amended witness: the amended rule applied to the entry expiring at
instant 5, once at `now = 6` (deleted, absent) and once at `now = 5`
(still returned). -/
theorem spec_c3_amended_witness :
    (Stash.getItem (Stash.set stashEmpty 0 "k" (.text ['v']) (some 5)).2 6 "k").1 = none ∧
    (Stash.getItem (Stash.set stashEmpty 0 "k" (.text ['v']) (some 5)).2 5 "k").1 =
      some (.text ['v'], 1) := by
  constructor
  · exact ((spec_c3_amended.1 _ 6 "k" ⟨.text ['v'], some 5, 1⟩ 5 rfl rfl).1
      (by decide)).1
  · exact ((spec_c3_amended.1 _ 5 "k" ⟨.text ['v'], some 5, 1⟩ 5 rfl rfl).2
      (by decide)).1

/-- C7: update on an absent key returns `False` and leaves the store
untouched, so a subsequent get still reports absent; on a present key it
is literally `set`, whose result is `True`.  Shown for both variants; the
model runs each operation as one atomic step, realizing the
single-lock-acquisition requirement on the existence check plus set. -/
theorem spec_c7 :
    (∀ st now key v t, st.cache key = none →
      Stash.update st now key v t = (false, st) ∧
      ∀ now2, (Stash.getItem st now2 key).1 = none) ∧
    (∀ st now key v t it, st.cache key = some it →
      Stash.update st now key v t = Stash.set st now key v t ∧
      (Stash.set st now key v t).1 = true) ∧
    (∀ st now key v t, st.cache key = none →
      MimicStash.update st now key v t = (false, st) ∧
      ∀ now2, (MimicStash.getItem st now2 key).1 = .ok none) ∧
    (∀ st now key v t it, st.cache key = some it →
      MimicStash.update st now key v t = MimicStash.set st now key v t ∧
      (MimicStash.set st now key v t).1 = true) := by
  refine ⟨?_, ?_, ?_, ?_⟩
  · intro st now key v t hc
    exact ⟨by simp [Stash.update, hc], fun now2 => by simp [Stash.getItem, hc]⟩
  · intro st now key v t it hc
    exact ⟨by simp [Stash.update, hc], rfl⟩
  · intro st now key v t hc
    exact ⟨by simp [MimicStash.update, hc], fun now2 => by simp [MimicStash.getItem, hc]⟩
  · intro st now key v t it hc
    exact ⟨by simp [MimicStash.update, hc], rfl⟩

/-- C7 witness: update on the absent key of an empty stash fails and
creates nothing; update on a present key succeeds. -/
theorem spec_c7_witness :
    Stash.update stashEmpty 0 "a" (.intg 1) (some 0) = (false, stashEmpty) ∧
    (Stash.getItem stashEmpty 3 "a").1 = none ∧
    (Stash.update (Stash.set stashEmpty 0 "a" (.intg 1) (some 0)).2 1 "a" (.intg 2) (some 0)).1 = true := by
  have h1 := spec_c7.1 stashEmpty 0 "a" (.intg 1) (some 0) rfl
  have h2 := spec_c7.2.1 (Stash.set stashEmpty 0 "a" (.intg 1) (some 0)).2 1 "a"
    (.intg 2) (some 0) ⟨.intg 1, none, 1⟩ rfl
  exact ⟨h1.1, h1.2 3, by rw [h2.1]; exact h2.2⟩

/-- C8 counterexample: `set("k", 5, ttl 100)` at time 0 stores expiry 100,
but `incr("k", 1)` rewrites the entry via `update(key, value)` — whose
`time` defaults to `None` — so the incremented entry has *no* expiry: the
prior expiry `some 100` is not reused. -/
theorem spec_c8_cex :
    (Stash.set stashEmpty 0 "k" (.intg 5) (some 100)).2.cache "k" =
      some ⟨.intg 5, some 100, 1⟩ ∧
    (Stash.incr (Stash.set stashEmpty 0 "k" (.intg 5) (some 100)).2 0 "k" 1).1 =
      .ok (some 6) ∧
    (Stash.incr (Stash.set stashEmpty 0 "k" (.intg 5) (some 100)).2 0 "k" 1).2.cache "k" =
      some ⟨.intg 6, none, 2⟩ := by
  refine ⟨rfl, by decide, by decide⟩

/-- C8 (amended): a successful `Increment` writes the new value back
through `update` with `time = None`, and the TTL rule maps `None` to "no
expiry": after any successful increment the entry never expires,
whatever expiry it had before (the fresh-token and new-value parts of the
claim do hold). -/
theorem spec_c8_amended (st : StashState) (now : Nat) (key : String)
    (d : Int) (n : Int) (h : (Stash.incr st now key d).1 = .ok (some n)) :
    ∃ it, (Stash.incr st now key d).2.cache key = some it ∧
      it.expires = none ∧
      (it.value = .intg n ∨ it.value = .text (intStr n)) := by
  rcases hg : (Stash.getItem st now key).1 with - | ⟨v, c⟩
  · simp [Stash.incr, hg] at h
  · obtain ⟨hst, it0, hc0, -, -⟩ := Stash.getItem_some hg
    by_cases hf : v.falsy
    · simp [Stash.incr, hg, hf] at h
    · rcases v with s | m | f | ⟨t2, r2⟩
      · rcases hp : strToInt s with - | m
        · simp [Stash.incr, hg, hf, hp] at h
        · have hn : m + d = n := by
            have h3 := h
            simp [Stash.incr, hg, hf, hp] at h3
            omega
          have hfin : (Stash.incr st now key d).2 =
              (Stash.update (Stash.getItem st now key).2 now key
                (.text (intStr (m + d))) none).2 := by
            simp [Stash.incr, hg, hf, hp]
          rw [hfin, hst]
          refine ⟨⟨.text (intStr (m + d)), none, st.nextId⟩,
            by simp [Stash.update, hc0, Stash.set, mapSet, ttlExpires], rfl, ?_⟩
          right
          rw [hn]
      · have hn : m + d = n := by
          have h3 := h
          simp [Stash.incr, hg, hf] at h3
          omega
        have hfin : (Stash.incr st now key d).2 =
            (Stash.update (Stash.getItem st now key).2 now key
              (.intg (m + d)) none).2 := by
          simp [Stash.incr, hg, hf]
        rw [hfin, hst]
        refine ⟨⟨.intg (m + d), none, st.nextId⟩,
          by simp [Stash.update, hc0, Stash.set, mapSet, ttlExpires], rfl, ?_⟩
        left
        rw [hn]
      · simp [Stash.incr, hg, hf] at h
      · simp [Stash.incr, hg, hf] at h

/-- C8 amended witness: the amended rule applied to the concrete
counterexample state. -/
theorem spec_c8_amended_witness :
    ∃ it,
      (Stash.incr (Stash.set stashEmpty 0 "k" (.intg 5) (some 100)).2 0 "k" 1).2.cache "k" =
        some it ∧ it.expires = none ∧
      (it.value = .intg 6 ∨ it.value = .text (intStr 6)) :=
  spec_c8_amended (Stash.set stashEmpty 0 "k" (.intg 5) (some 100)).2 0 "k" 1 6
    (by decide)

theorem Stash.set_cache_key (st : StashState) (now : Nat) (key : String)
    (v : PyVal) (t : Option Nat) :
    (Stash.set st now key v t).2.cache key = some ⟨v, ttlExpires now t, st.nextId⟩ := by
  simp [Stash.set, mapSet]

theorem tokensFresh_subMap {st st1 : StashState}
    (hsub : ∀ k it, st1.cache k = some it → st.cache k = some it)
    (hnid : st1.nextId = st.nextId) (h : TokensFresh st) : TokensFresh st1 := by
  intro k it hit
  rw [hnid]
  exact h k it (hsub k it hit)

theorem fresh_vs_set {st st1 : StashState} (now : Nat) (key : String)
    (v : PyVal) (t : Option Nat) (hfresh : TokensFresh st)
    (hnid : st1.nextId = st.nextId) :
    ∃ nw, (Stash.set st1 now key v t).2.cache key = some nw ∧
      ∀ k0 it0, st.cache k0 = some it0 → it0.cas_id ≠ nw.cas_id := by
  refine ⟨⟨v, ttlExpires now t, st1.nextId⟩, Stash.set_cache_key st1 now key v t, ?_⟩
  intro k0 it0 h0
  have hlt := hfresh k0 it0 h0
  show it0.cas_id ≠ st1.nextId
  omega

theorem tokensFresh_set {st : StashState} (now : Nat) (key : String)
    (v : PyVal) (t : Option Nat) (h : TokensFresh st) :
    TokensFresh (Stash.set st now key v t).2 := by
  intro k it hit
  simp only [Stash.set, mapSet] at hit ⊢
  by_cases hk : k = key
  · rw [if_pos hk] at hit
    obtain rfl := (Option.some.inj hit).symm
    show st.nextId < st.nextId + 1
    omega
  · rw [if_neg hk] at hit
    exact Nat.lt_succ_of_lt (h k it hit)

theorem tokensFresh_getItem {st : StashState} (now : Nat) (key : String)
    (h : TokensFresh st) : TokensFresh (Stash.getItem st now key).2 :=
  tokensFresh_subMap (Stash.getItem_subMap st now key).1
    (Stash.getItem_subMap st now key).2 h

theorem Stash.update_state (st : StashState) (now : Nat) (key : String)
    (v : PyVal) (t : Option Nat) :
    (Stash.update st now key v t).2 = st ∨
    (Stash.update st now key v t).2 = (Stash.set st now key v t).2 := by
  rcases hc : st.cache key with - | it <;> simp [Stash.update, hc]

theorem Stash.cas_state (st : StashState) (now : Nat) (key : String)
    (v : PyVal) (t : Option Nat) (tok : Option Nat) :
    (Stash.cas st now key v t tok).2 = st ∨
    (Stash.cas st now key v t tok).2 = (Stash.set st now key v t).2 := by
  rcases hc : st.cache key with - | it <;> rcases tok with - | ct
  · simp [Stash.cas, hc]
  · simp [Stash.cas, hc]
  · simp [Stash.cas, hc]
  · simp only [Stash.cas, hc]
    split_ifs <;> simp

theorem Stash.cas_succ_state (st : StashState) (now : Nat) (key : String)
    (v : PyVal) (t : Option Nat) (tok : Option Nat)
    (h : (Stash.cas st now key v t tok).1 = .obool true) :
    (Stash.cas st now key v t tok).2 = (Stash.set st now key v t).2 := by
  rcases hc : st.cache key with - | it <;> rcases tok with - | ct
  · simp [Stash.cas, hc]
  · simp [Stash.cas, hc]
  · simp [Stash.cas, hc]
  · simp only [Stash.cas, hc] at h ⊢
    split_ifs at h ⊢
    · rfl
    · rfl

theorem Stash.append_state (st : StashState) (now : Nat) (key : String)
    (v : PyVal) (t : Option Nat) :
    (Stash.append st now key v t).2 = (Stash.getItem st now key).2 ∨
    ∃ v2, (Stash.append st now key v t).2 =
      (Stash.set (Stash.getItem st now key).2 now key v2 t).2 := by
  rcases hg : (Stash.getItem st now key).1 with - | ⟨orig, c⟩
  · left; simp [Stash.append, hg]
  · by_cases hf : orig.falsy
    · left; simp [Stash.append, hg, hf]
    · rcases orig with s | m | f | ⟨t2, r2⟩
      · right; exact ⟨.text (s ++ pyStr v), by simp [Stash.append, hg, hf]⟩
      · rcases hp : strToInt (intStr m ++ pyStr v) with - | m2
        · left; simp [Stash.append, hg, hf, hp]
        · right; exact ⟨.intg m2, by simp [Stash.append, hg, hf, hp]⟩
      · rcases hp : strToFloat (floatStr f ++ pyStr v) with - | f2
        · left; simp [Stash.append, hg, hf, hp]
        · right; exact ⟨.flt f2, by simp [Stash.append, hg, hf, hp]⟩
      · left; simp [Stash.append, hg, hf]

theorem Stash.append_succ_state (st : StashState) (now : Nat) (key : String)
    (v : PyVal) (t : Option Nat) (h : (Stash.append st now key v t).1 = .ok true) :
    ∃ v2, (Stash.append st now key v t).2 =
      (Stash.set (Stash.getItem st now key).2 now key v2 t).2 := by
  rcases hg : (Stash.getItem st now key).1 with - | ⟨orig, c⟩
  · simp [Stash.append, hg] at h
  · by_cases hf : orig.falsy
    · simp [Stash.append, hg, hf] at h
    · rcases orig with s | m | f | ⟨t2, r2⟩
      · exact ⟨.text (s ++ pyStr v), by simp [Stash.append, hg, hf]⟩
      · rcases hp : strToInt (intStr m ++ pyStr v) with - | m2
        · simp [Stash.append, hg, hf, hp] at h
        · exact ⟨.intg m2, by simp [Stash.append, hg, hf, hp]⟩
      · rcases hp : strToFloat (floatStr f ++ pyStr v) with - | f2
        · simp [Stash.append, hg, hf, hp] at h
        · exact ⟨.flt f2, by simp [Stash.append, hg, hf, hp]⟩
      · simp [Stash.append, hg, hf] at h

theorem Stash.prepend_state (st : StashState) (now : Nat) (key : String)
    (v : PyVal) (t : Option Nat) :
    (Stash.prepend st now key v t).2 = (Stash.getItem st now key).2 ∨
    ∃ v2, (Stash.prepend st now key v t).2 =
      (Stash.set (Stash.getItem st now key).2 now key v2 t).2 := by
  rcases hg : (Stash.getItem st now key).1 with - | ⟨orig, c⟩
  · left; simp [Stash.prepend, hg]
  · by_cases hf : orig.falsy
    · left; simp [Stash.prepend, hg, hf]
    · rcases orig with s | m | f | ⟨t2, r2⟩
      · right; exact ⟨.text (pyStr v ++ s), by simp [Stash.prepend, hg, hf]⟩
      · rcases hp : strToInt (pyStr v ++ intStr m) with - | m2
        · left; simp [Stash.prepend, hg, hf, hp]
        · right; exact ⟨.intg m2, by simp [Stash.prepend, hg, hf, hp]⟩
      · rcases hp : strToFloat (pyStr v ++ floatStr f) with - | f2
        · left; simp [Stash.prepend, hg, hf, hp]
        · right; exact ⟨.flt f2, by simp [Stash.prepend, hg, hf, hp]⟩
      · left; simp [Stash.prepend, hg, hf]

theorem Stash.prepend_succ_state (st : StashState) (now : Nat) (key : String)
    (v : PyVal) (t : Option Nat) (h : (Stash.prepend st now key v t).1 = .ok true) :
    ∃ v2, (Stash.prepend st now key v t).2 =
      (Stash.set (Stash.getItem st now key).2 now key v2 t).2 := by
  rcases hg : (Stash.getItem st now key).1 with - | ⟨orig, c⟩
  · simp [Stash.prepend, hg] at h
  · by_cases hf : orig.falsy
    · simp [Stash.prepend, hg, hf] at h
    · rcases orig with s | m | f | ⟨t2, r2⟩
      · exact ⟨.text (pyStr v ++ s), by simp [Stash.prepend, hg, hf]⟩
      · rcases hp : strToInt (pyStr v ++ intStr m) with - | m2
        · simp [Stash.prepend, hg, hf, hp] at h
        · exact ⟨.intg m2, by simp [Stash.prepend, hg, hf, hp]⟩
      · rcases hp : strToFloat (pyStr v ++ floatStr f) with - | f2
        · simp [Stash.prepend, hg, hf, hp] at h
        · exact ⟨.flt f2, by simp [Stash.prepend, hg, hf, hp]⟩
      · simp [Stash.prepend, hg, hf] at h

theorem Stash.incr_state (st : StashState) (now : Nat) (key : String) (d : Int) :
    (Stash.incr st now key d).2 = (Stash.getItem st now key).2 ∨
    ∃ v2, (Stash.incr st now key d).2 =
      (Stash.update (Stash.getItem st now key).2 now key v2 none).2 := by
  rcases hg : (Stash.getItem st now key).1 with - | ⟨v, c⟩
  · left; simp [Stash.incr, hg]
  · by_cases hf : v.falsy
    · left; simp [Stash.incr, hg, hf]
    · rcases v with s | m | f | ⟨t2, r2⟩
      · rcases hp : strToInt s with - | m
        · left; simp [Stash.incr, hg, hf, hp]
        · right; exact ⟨.text (intStr (m + d)), by simp [Stash.incr, hg, hf, hp]⟩
      · right; exact ⟨.intg (m + d), by simp [Stash.incr, hg, hf]⟩
      · left; simp [Stash.incr, hg, hf]
      · left; simp [Stash.incr, hg, hf]

theorem Stash.incr_succ_state (st : StashState) (now : Nat) (key : String)
    (d : Int) (n : Int) (h : (Stash.incr st now key d).1 = .ok (some n)) :
    ∃ v2, (Stash.incr st now key d).2 =
      (Stash.set (Stash.getItem st now key).2 now key v2 none).2 := by
  rcases hg : (Stash.getItem st now key).1 with - | ⟨v, c⟩
  · simp [Stash.incr, hg] at h
  · obtain ⟨hst, it0, hc0, -, -⟩ := Stash.getItem_some hg
    have hupd : ∀ v2 : PyVal,
        (Stash.update (Stash.getItem st now key).2 now key v2 none).2 =
        (Stash.set (Stash.getItem st now key).2 now key v2 none).2 := by
      intro v2
      rw [hst]
      simp [Stash.update, hc0]
    by_cases hf : v.falsy
    · simp [Stash.incr, hg, hf] at h
    · rcases v with s | m | f | ⟨t2, r2⟩
      · rcases hp : strToInt s with - | m
        · simp [Stash.incr, hg, hf, hp] at h
        · exact ⟨.text (intStr (m + d)),
            by rw [← hupd]; simp [Stash.incr, hg, hf, hp]⟩
      · exact ⟨.intg (m + d), by rw [← hupd]; simp [Stash.incr, hg, hf]⟩
      · simp [Stash.incr, hg, hf] at h
      · simp [Stash.incr, hg, hf] at h

/-- C2: freshness of cas tokens, in the fresh-supply model of `uuid4`
(see the header comment).  With the supply invariant `TokensFresh`
(established by the empty stash and preserved by every operation, so all
previously issued tokens lie below the supply), every `set`, successful
`cas`, successful `append`/`prepend`, successful `update` and successful
`incr` leaves the touched key holding a token different from the token of
every entry of the prior store — in particular different from the token
that key held before — and `Get` is read-only on tokens: when it returns
`(value, token)`, the entry still holds exactly `token`. -/
theorem spec_c2 :
    (∀ st now key v t, TokensFresh st →
      ∃ nw, (Stash.set st now key v t).2.cache key = some nw ∧
        ∀ k0 it0, st.cache k0 = some it0 → it0.cas_id ≠ nw.cas_id) ∧
    (∀ st now key v t tok, TokensFresh st →
      (Stash.cas st now key v t tok).1 = .obool true →
      ∃ nw, (Stash.cas st now key v t tok).2.cache key = some nw ∧
        ∀ k0 it0, st.cache k0 = some it0 → it0.cas_id ≠ nw.cas_id) ∧
    (∀ st now key v t, TokensFresh st →
      (Stash.append st now key v t).1 = .ok true →
      ∃ nw, (Stash.append st now key v t).2.cache key = some nw ∧
        ∀ k0 it0, st.cache k0 = some it0 → it0.cas_id ≠ nw.cas_id) ∧
    (∀ st now key v t, TokensFresh st →
      (Stash.prepend st now key v t).1 = .ok true →
      ∃ nw, (Stash.prepend st now key v t).2.cache key = some nw ∧
        ∀ k0 it0, st.cache k0 = some it0 → it0.cas_id ≠ nw.cas_id) ∧
    (∀ st now key v t, TokensFresh st →
      (Stash.update st now key v t).1 = true →
      ∃ nw, (Stash.update st now key v t).2.cache key = some nw ∧
        ∀ k0 it0, st.cache k0 = some it0 → it0.cas_id ≠ nw.cas_id) ∧
    (∀ st now key d n, TokensFresh st →
      (Stash.incr st now key d).1 = .ok (some n) →
      ∃ nw, (Stash.incr st now key d).2.cache key = some nw ∧
        ∀ k0 it0, st.cache k0 = some it0 → it0.cas_id ≠ nw.cas_id) ∧
    TokensFresh stashEmpty ∧
    (∀ st now key v t, TokensFresh st → TokensFresh (Stash.set st now key v t).2) ∧
    (∀ st now key, TokensFresh st → TokensFresh (Stash.getItem st now key).2) ∧
    (∀ st now key v t, TokensFresh st → TokensFresh (Stash.update st now key v t).2) ∧
    (∀ st now key v t tok, TokensFresh st → TokensFresh (Stash.cas st now key v t tok).2) ∧
    (∀ st now key v t, TokensFresh st → TokensFresh (Stash.append st now key v t).2) ∧
    (∀ st now key v t, TokensFresh st → TokensFresh (Stash.prepend st now key v t).2) ∧
    (∀ st now key d, TokensFresh st → TokensFresh (Stash.incr st now key d).2) ∧
    (∀ st now key v c, (Stash.getItem st now key).1 = some (v, c) →
      (Stash.getItem st now key).2 = st ∧
      ∃ it, st.cache key = some it ∧ it.cas_id = c ∧ it.value = v) := by
  have hsetF : ∀ st now key v t, TokensFresh st →
      ∃ nw, (Stash.set st now key v t).2.cache key = some nw ∧
        ∀ k0 it0, st.cache k0 = some it0 → it0.cas_id ≠ nw.cas_id :=
    fun st now key v t hf => fresh_vs_set now key v t hf rfl
  have hgetF : ∀ st now key v t, TokensFresh st →
      ∃ nw, (Stash.set (Stash.getItem st now key).2 now key v t).2.cache key = some nw ∧
        ∀ k0 it0, st.cache k0 = some it0 → it0.cas_id ≠ nw.cas_id :=
    fun st now key v t hf =>
      fresh_vs_set now key v t hf (Stash.getItem_subMap st now key).2
  refine ⟨hsetF, ?_, ?_, ?_, ?_, ?_, ?_, ?_, ?_, ?_, ?_, ?_, ?_, ?_, ?_⟩
  · intro st now key v t tok hf hsucc
    rw [Stash.cas_succ_state st now key v t tok hsucc]
    exact hsetF st now key v t hf
  · intro st now key v t hf hsucc
    obtain ⟨v2, hv2⟩ := Stash.append_succ_state st now key v t hsucc
    rw [hv2]
    exact hgetF st now key v2 t hf
  · intro st now key v t hf hsucc
    obtain ⟨v2, hv2⟩ := Stash.prepend_succ_state st now key v t hsucc
    rw [hv2]
    exact hgetF st now key v2 t hf
  · intro st now key v t hf hsucc
    rcases Stash.update_state st now key v t with hu | hu
    · rcases hc : st.cache key with - | it
      · simp [Stash.update, hc] at hsucc
      · have : Stash.update st now key v t = Stash.set st now key v t := by
          simp [Stash.update, hc]
        rw [this]
        exact hsetF st now key v t hf
    · rw [hu]
      exact hsetF st now key v t hf
  · intro st now key d n hf hsucc
    obtain ⟨v2, hv2⟩ := Stash.incr_succ_state st now key d n hsucc
    rw [hv2]
    exact hgetF st now key v2 none hf
  · intro k it hit
    simp [stashEmpty] at hit
  · exact fun st now key v t hf => tokensFresh_set now key v t hf
  · exact fun st now key hf => tokensFresh_getItem now key hf
  · intro st now key v t hf
    rcases Stash.update_state st now key v t with hu | hu <;> rw [hu]
    · exact hf
    · exact tokensFresh_set now key v t hf
  · intro st now key v t tok hf
    rcases Stash.cas_state st now key v t tok with hu | hu <;> rw [hu]
    · exact hf
    · exact tokensFresh_set now key v t hf
  · intro st now key v t hf
    rcases Stash.append_state st now key v t with hu | ⟨v2, hu⟩ <;> rw [hu]
    · exact tokensFresh_getItem now key hf
    · exact tokensFresh_set now key v2 t (tokensFresh_getItem now key hf)
  · intro st now key v t hf
    rcases Stash.prepend_state st now key v t with hu | ⟨v2, hu⟩ <;> rw [hu]
    · exact tokensFresh_getItem now key hf
    · exact tokensFresh_set now key v2 t (tokensFresh_getItem now key hf)
  · intro st now key d hf
    rcases Stash.incr_state st now key d with hu | ⟨v2, hu⟩ <;> rw [hu]
    · exact tokensFresh_getItem now key hf
    · rcases Stash.update_state (Stash.getItem st now key).2 now key v2 none with h2 | h2 <;>
        rw [h2]
      · exact tokensFresh_getItem now key hf
      · exact tokensFresh_set now key v2 none (tokensFresh_getItem now key hf)
  · intro st now key v c h
    obtain ⟨h1, it, h2, h3, h4⟩ := Stash.getItem_some h
    exact ⟨h1, it, h2, h4, h3⟩

/-- C2 witness: a one-entry stash whose entry token is 1 under supply 2;
overwriting it, a successful token-matching `cas`, a successful `incr`,
and a `Get` all instantiated concretely. -/
theorem spec_c2_witness :
    (∃ nw, (Stash.set (Stash.set stashEmpty 0 "a" (.intg 3) (some 0)).2
        5 "a" (.intg 4) (some 0)).2.cache "a" = some nw ∧
      ∀ k0 it0, (Stash.set stashEmpty 0 "a" (.intg 3) (some 0)).2.cache k0 = some it0 →
        it0.cas_id ≠ nw.cas_id) ∧
    (∃ nw, (Stash.cas (Stash.set stashEmpty 0 "a" (.intg 3) (some 0)).2
        5 "a" (.intg 4) (some 0) (some 1)).2.cache "a" = some nw ∧
      ∀ k0 it0, (Stash.set stashEmpty 0 "a" (.intg 3) (some 0)).2.cache k0 = some it0 →
        it0.cas_id ≠ nw.cas_id) ∧
    (∃ nw, (Stash.incr (Stash.set stashEmpty 0 "a" (.intg 3) (some 0)).2
        5 "a" 1).2.cache "a" = some nw ∧
      ∀ k0 it0, (Stash.set stashEmpty 0 "a" (.intg 3) (some 0)).2.cache k0 = some it0 →
        it0.cas_id ≠ nw.cas_id) ∧
    ((Stash.getItem (Stash.set stashEmpty 0 "a" (.intg 3) (some 0)).2 5 "a").2 =
      (Stash.set stashEmpty 0 "a" (.intg 3) (some 0)).2 ∧
      ∃ it, (Stash.set stashEmpty 0 "a" (.intg 3) (some 0)).2.cache "a" = some it ∧
        it.cas_id = 1 ∧ it.value = .intg 3) := by
  have hfr : TokensFresh (Stash.set stashEmpty 0 "a" (.intg 3) (some 0)).2 := by
    intro k it hit
    simp only [Stash.set, mapSet, stashEmpty] at hit ⊢
    by_cases hk : k = "a"
    · rw [if_pos hk] at hit
      obtain rfl := (Option.some.inj hit).symm
      decide
    · rw [if_neg hk] at hit
      exact absurd hit (by simp)
  refine ⟨spec_c2.1 _ 5 "a" (.intg 4) (some 0) hfr,
    spec_c2.2.1 _ 5 "a" (.intg 4) (some 0) (some 1) hfr (by decide),
    spec_c2.2.2.2.2.2.1 _ 5 "a" 1 4 hfr (by decide),
    spec_c2.2.2.2.2.2.2.2.2.2.2.2.2.2.2 _ 5 "a" (.intg 3) 1 (by decide)⟩

/-- C4: `Increment(key, delta)` returns the `None` result exactly when the
key reads as absent or its current value is falsy (empty string, zero int,
zero float, falsy opaque) — with no error — and raises the NonNumeric
`ValueError` whenever the current value is non-falsy and neither textual
nor an integer (which covers compound/opaque values, and also floats).
Shown for both variants; in the Mimic variant the "current value" is the
parse of the stored bytes. -/
theorem spec_c4 :
    (∀ (st : StashState) now key d,
      ((Stash.incr st now key d).1 = .ok none ↔
        (Stash.getItem st now key).1 = none ∨
        ∃ v c, (Stash.getItem st now key).1 = some (v, c) ∧ v.falsy = true)) ∧
    (∀ (st : StashState) now key d v c,
      (Stash.getItem st now key).1 = some (v, c) → v.falsy = false →
      (∀ s, v ≠ .text s) → (∀ n, v ≠ .intg n) →
      (Stash.incr st now key d).1 =
        .err (.valueError "cannot increment or decrement non-numeric value")) ∧
    (∀ (st : MimicState) now key d,
      ((MimicStash.incr st now key d).1 = .ok none ↔
        (MimicStash.getItem st now key).1 = .ok none ∨
        ∃ v c, (MimicStash.getItem st now key).1 = .ok (some (v, c)) ∧
          v.falsy = true)) ∧
    (∀ (st : MimicState) now key d v c,
      (MimicStash.getItem st now key).1 = .ok (some (v, c)) → v.falsy = false →
      (∀ s, v ≠ .text s) → (∀ n, v ≠ .intg n) →
      (MimicStash.incr st now key d).1 =
        .err (.valueError "cannot increment or decrement non-numeric value")) := by
  refine ⟨?_, ?_, ?_, ?_⟩
  · intro st now key d
    constructor
    · intro h
      rcases hg : (Stash.getItem st now key).1 with - | ⟨v, c⟩
      · left; rfl
      · right
        by_cases hf : v.falsy
        · exact ⟨v, c, rfl, hf⟩
        · exfalso
          rcases v with s | m | f | ⟨t2, r2⟩
          · rcases hp : strToInt s with - | m <;>
              simp [Stash.incr, hg, hf, hp] at h
          · simp [Stash.incr, hg, hf] at h
          · simp [Stash.incr, hg, hf] at h
          · simp [Stash.incr, hg, hf] at h
    · intro h
      rcases h with hg | ⟨v, c, hg, hf⟩
      · simp [Stash.incr, hg]
      · simp [Stash.incr, hg, hf]
  · intro st now key d v c hg hf ht hn
    rcases v with s | m | f | ⟨t2, r2⟩
    · exact absurd rfl (ht s)
    · exact absurd rfl (hn m)
    · simp [Stash.incr, hg, hf]
    · simp [Stash.incr, hg, hf]
  · intro st now key d
    constructor
    · intro h
      rcases hg : (MimicStash.getItem st now key).1 with vv | er
      · rcases vv with - | ⟨v, c⟩
        · left; rfl
        · right
          by_cases hf : v.falsy
          · exact ⟨v, c, rfl, hf⟩
          · exfalso
            rcases v with s | m | f | ⟨t2, r2⟩
            · rcases hp : strToInt s with - | m <;>
                simp [MimicStash.incr, hg, hf, hp] at h
            · simp [MimicStash.incr, hg, hf] at h
            · simp [MimicStash.incr, hg, hf] at h
            · simp [MimicStash.incr, hg, hf] at h
      · exfalso
        simp [MimicStash.incr, hg] at h
    · intro h
      rcases h with hg | ⟨v, c, hg, hf⟩
      · simp [MimicStash.incr, hg]
      · simp [MimicStash.incr, hg, hf]
  · intro st now key d v c hg hf ht hn
    rcases v with s | m | f | ⟨t2, r2⟩
    · exact absurd rfl (ht s)
    · exact absurd rfl (hn m)
    · simp [MimicStash.incr, hg, hf]
    · simp [MimicStash.incr, hg, hf]

/-- C4 witness: incrementing an absent key yields the `None` result;
incrementing a stored opaque value (typed variant) or a stored float
(Mimic variant, whose parse never yields an opaque) raises the NonNumeric
error. -/
theorem spec_c4_witness :
    (Stash.incr stashEmpty 0 "k" 1).1 = .ok none ∧
    (Stash.incr (Stash.set stashEmpty 0 "d" (.other true ['x']) (some 0)).2 0 "d" 1).1 =
      .err (.valueError "cannot increment or decrement non-numeric value") ∧
    (MimicStash.incr mimicEmpty 0 "k" 1).1 = .ok none ∧
    (MimicStash.incr (MimicStash.set mimicEmpty 0 "d" (.flt ⟨false, 1, [5]⟩) (some 0)).2
        0 "d" 1).1 =
      .err (.valueError "cannot increment or decrement non-numeric value") := by
  refine ⟨(spec_c4.1 stashEmpty 0 "k" 1).mpr (Or.inl rfl),
    spec_c4.2.1 _ 0 "d" 1 (.other true ['x']) 1 (by decide) (by decide)
      (fun s h => PyVal.noConfusion h) (fun n h => PyVal.noConfusion h),
    (spec_c4.2.2.1 mimicEmpty 0 "k" 1).mpr (Or.inl rfl),
    spec_c4.2.2.2 _ 0 "d" 1 (.flt ⟨false, 1, [5]⟩) 1 (by decide) (by decide)
      (fun s h => PyVal.noConfusion h) (fun n h => PyVal.noConfusion h)⟩

/-- C6: a `cas` on a present key with a real (truthy) supplied token that
differs from the entry's current token returns the Python int `0` and
changes nothing; success returns the Python bool `True`, and the
absent/failure result of the other operations (e.g. `update`) is the
Python bool `False`.  As Python objects the three outcomes are pairwise
distinct — `0` is an `int`, not a `bool`, so `type`/`is` tell them apart —
though `0 == False` under numeric equality, which is the caller's peril
the specification warns about.  Shown for both variants. -/
theorem spec_c6 :
    (∀ (st : StashState) now key v t ct it, st.cache key = some it →
      ct ≠ 0 → ct ≠ it.cas_id →
      Stash.cas st now key v t (some ct) = (.oint 0, st)) ∧
    (∀ (st : StashState) now key v t ct it, st.cache key = some it →
      ct ≠ 0 → ct = it.cas_id →
      (Stash.cas st now key v t (some ct)).1 = .obool true) ∧
    (∀ (st : StashState) now key v t,
      (Stash.cas st now key v t none).1 = .obool true) ∧
    (∀ (st : StashState) now key v t, st.cache key = none →
      (Stash.update st now key v t).1 = false) ∧
    (∀ (st : MimicState) now key v t ct it, st.cache key = some it →
      ct ≠ 0 → ct ≠ it.cas_id →
      MimicStash.cas st now key v t (some ct) = (.oint 0, st)) ∧
    (∀ b : Bool, PyObj.oint 0 ≠ PyObj.obool b) := by
  refine ⟨?_, ?_, ?_, ?_, ?_, ?_⟩
  · intro st now key v t ct it hc h0 hm
    simp only [Stash.cas, hc]
    rw [if_neg h0, if_neg hm]
  · intro st now key v t ct it hc h0 hm
    simp only [Stash.cas, hc]
    rw [if_neg h0, if_pos hm]
    rfl
  · intro st now key v t
    rcases hc : st.cache key with - | it <;> simp [Stash.cas, hc, Stash.set]
  · intro st now key v t hc
    simp [Stash.update, hc]
  · intro st now key v t ct it hc h0 hm
    simp only [MimicStash.cas, hc]
    rw [if_neg h0, if_neg hm]
  · intro b h
    cases h

/-- C6 witness: the entry of a one-entry stash holds token 1; a `cas`
supplying token 2 returns the stale int `0` with the store unchanged, a
`cas` supplying token 1 succeeds with `True`, and `update` on an absent
key fails with `False`. -/
theorem spec_c6_witness :
    Stash.cas (Stash.set stashEmpty 0 "a" (.intg 3) (some 0)).2 5 "a" (.intg 4)
        (some 0) (some 2) =
      (.oint 0, (Stash.set stashEmpty 0 "a" (.intg 3) (some 0)).2) ∧
    (Stash.cas (Stash.set stashEmpty 0 "a" (.intg 3) (some 0)).2 5 "a" (.intg 4)
        (some 0) (some 1)).1 = .obool true ∧
    (Stash.update stashEmpty 0 "b" (.intg 1) (some 0)).1 = false ∧
    PyObj.oint 0 ≠ PyObj.obool true ∧ PyObj.oint 0 ≠ PyObj.obool false := by
  refine ⟨spec_c6.1 _ 5 "a" (.intg 4) (some 0) 2 ⟨.intg 3, none, 1⟩ (by decide)
      (by decide) (by decide),
    spec_c6.2.1 _ 5 "a" (.intg 4) (some 0) 1 ⟨.intg 3, none, 1⟩ (by decide)
      (by decide) (by decide),
    spec_c6.2.2.2.1 stashEmpty 0 "b" (.intg 1) (some 0) rfl,
    spec_c6.2.2.2.2.2 true, spec_c6.2.2.2.2.2 false⟩

/-- C10: in the typed variant, `append`/`prepend` on a key whose current
value is falsy (empty string, integer 0, or 0.0) return `False` and leave
the whole store state unchanged (same entry, expiry, token), exactly as on
an absent key — so at this interface a present falsy value is
indistinguishable from absence. -/
theorem spec_c10 :
    (∀ st now key v t val c,
      (Stash.getItem st now key).1 = some (val, c) → val.falsy = true →
      Stash.append st now key v t = (.ok false, st) ∧
      Stash.prepend st now key v t = (.ok false, st)) ∧
    (∀ st now key v t, st.cache key = none →
      Stash.append st now key v t = (.ok false, st) ∧
      Stash.prepend st now key v t = (.ok false, st)) := by
  constructor
  · intro st now key v t val c hg hf
    obtain ⟨hst, -, -, -, -⟩ := Stash.getItem_some hg
    constructor
    · have h1 : Stash.append st now key v t =
          (.ok false, (Stash.getItem st now key).2) := by
        simp [Stash.append, hg, hf]
      rw [h1, hst]
    · have h1 : Stash.prepend st now key v t =
          (.ok false, (Stash.getItem st now key).2) := by
        simp [Stash.prepend, hg, hf]
      rw [h1, hst]
  · intro st now key v t hc
    constructor
    · simp [Stash.append, Stash.getItem, hc]
    · simp [Stash.prepend, Stash.getItem, hc]

/-- C10 witness: appending to a stored integer 0, a stored empty string,
a stored 0.0, and an absent key all return `False` and leave the store as
it was. -/
theorem spec_c10_witness :
    Stash.append (Stash.set stashEmpty 0 "z" (.intg 0) (some 0)).2 1 "z"
        (.intg 7) (some 0) =
      (.ok false, (Stash.set stashEmpty 0 "z" (.intg 0) (some 0)).2) ∧
    Stash.prepend (Stash.set stashEmpty 0 "e" (.text []) (some 0)).2 1 "e"
        (.text ['x']) (some 0) =
      (.ok false, (Stash.set stashEmpty 0 "e" (.text []) (some 0)).2) ∧
    Stash.append (Stash.set stashEmpty 0 "f" (.flt ⟨false, 0, [0]⟩) (some 0)).2 1 "f"
        (.intg 7) (some 0) =
      (.ok false, (Stash.set stashEmpty 0 "f" (.flt ⟨false, 0, [0]⟩) (some 0)).2) ∧
    Stash.append stashEmpty 1 "none" (.intg 7) (some 0) = (.ok false, stashEmpty) := by
  refine ⟨(spec_c10.1 _ 1 "z" (.intg 7) (some 0) (.intg 0) 1 (by decide) (by decide)).1,
    (spec_c10.1 _ 1 "e" (.text ['x']) (some 0) (.text []) 1 (by decide) (by decide)).2,
    (spec_c10.1 _ 1 "f" (.intg 7) (some 0) (.flt ⟨false, 0, [0]⟩) 1 (by decide)
      (by decide)).1,
    (spec_c10.2 stashEmpty 1 "none" (.intg 7) (some 0) rfl).1⟩

theorem intStr_natCast (n : Nat) : intStr (n : Int) = natToStr n := by
  rw [intStr, if_neg (by omega)]
  norm_num

theorem dropWhile_zero_eq_nil (l : List Nat)
    (h : l.dropWhile (fun x => x = 0) = []) : ∀ d ∈ l, d = 0 := by
  induction l with
  | nil => simp
  | cons a l ih =>
    rw [List.dropWhile_cons] at h
    by_cases ha : a = 0
    · rw [if_pos (by simp [ha])] at h
      intro d hd
      rcases List.mem_cons.mp hd with rfl | hd
      · exact ha
      · exact ih h d hd
    · rw [if_neg (by simp [ha])] at h
      exact absurd h (by simp)

theorem dropWhile_zero_not_cons_zero (l xs : List Nat) :
    l.dropWhile (fun x => x = 0) ≠ 0 :: xs := by
  induction l with
  | nil => simp
  | cons a l ih =>
    rw [List.dropWhile_cons]
    by_cases ha : a = 0
    · rw [if_pos (by simp [ha])]
      exact ih
    · rw [if_neg (by simp [ha])]
      intro h
      exact ha (List.cons.inj h).1

theorem normFrac_ne_single_zero (y : List Nat) (d : Nat) (hd : d ∈ y)
    (hdnz : d ≠ 0) : normFrac y ≠ [0] := by
  by_cases hs : stripTrailingZeros y = []
  · exfalso
    have h2 : y.reverse.dropWhile (fun x => x = 0) = [] := by
      have h3 := congrArg List.reverse hs
      rw [stripTrailingZeros, List.reverse_reverse] at h3
      simpa using h3
    exact hdnz (dropWhile_zero_eq_nil _ h2 d (List.mem_reverse.mpr hd))
  · rw [normFrac, if_neg hs]
    intro hc
    have h2 : y.reverse.dropWhile (fun x => x = 0) = 0 :: [] := by
      have h3 := congrArg List.reverse hc
      rw [stripTrailingZeros, List.reverse_reverse] at h3
      simpa using h3
    exact dropWhile_zero_not_cons_zero _ _ h2

theorem mkFloat_eq_of_nonzero (neg : Bool) (ip : Nat) (fp2 : List Nat)
    (h : ip ≠ 0 ∨ fp2 ≠ [0]) : mkFloat neg ip fp2 = ⟨neg, ip, fp2⟩ := by
  rw [mkFloat]
  rcases h with h | h
  · have h2 : decide (ip = 0) = false := by simp [h]
    rw [h2]
    simp
  · have h2 : decide (fp2 = [0]) = false := by simp [h]
    rw [h2]
    simp

theorem mkFloat_false (ip : Nat) (fp2 : List Nat) :
    mkFloat false ip fp2 = ⟨false, ip, fp2⟩ := rfl

theorem floatCore_digLists (neg : Bool) (ipds fpds : List Nat)
    (hip : ∀ d ∈ ipds, d < 10) (hfp : ∀ d ∈ fpds, d < 10) (hne : ipds ≠ []) :
    floatCore neg (ipds.map digChar ++ '.' :: fpds.map digChar) =
      some (mkFloat neg (digsVal ipds) (normFrac fpds)) := by
  have hbd : breakDot (ipds.map digChar ++ '.' :: fpds.map digChar) =
      (ipds.map digChar, some (fpds.map digChar)) :=
    breakDot_append_dot _ _ (dot_not_mem_map_digChar _ hip)
  have hipne : ipds.map digChar ≠ [] := by simpa using hne
  rw [floatCore, hbd]
  show floatParts neg (ipds.map digChar) (some (fpds.map digChar)) = _
  simp only [floatParts]
  rw [if_neg (fun hc => hipne hc.1), digsOfChars_map _ hip, digsOfChars_map _ hfp]
  rfl

theorem strToFloat_digLists (ipds fpds : List Nat)
    (hip : ∀ d ∈ ipds, d < 10) (hfp : ∀ d ∈ fpds, d < 10) (hne : ipds ≠ []) :
    strToFloat (ipds.map digChar ++ '.' :: fpds.map digChar) =
      some (mkFloat false (digsVal ipds) (normFrac fpds)) := by
  match ipds, hne, hip with
  | d :: ds, _, hip =>
    have hd : d < 10 := hip d (by simp)
    have hshape : (d :: ds).map digChar ++ '.' :: fpds.map digChar =
        digChar d :: (ds.map digChar ++ '.' :: fpds.map digChar) := rfl
    rw [hshape]
    simp only [strToFloat]
    rw [if_neg (digChar_ne_dash d hd), ← hshape]
    exact floatCore_digLists false (d :: ds) fpds hip hfp (by simp)

theorem strToFloat_digLists_neg (ipds fpds : List Nat)
    (hip : ∀ d ∈ ipds, d < 10) (hfp : ∀ d ∈ fpds, d < 10) (hne : ipds ≠ []) :
    strToFloat ('-' :: (ipds.map digChar ++ '.' :: fpds.map digChar)) =
      some (mkFloat true (digsVal ipds) (normFrac fpds)) := by
  have hcore := floatCore_digLists true ipds fpds hip hfp hne
  simp only [strToFloat]
  simpa using hcore

theorem strToFloat_floatStr_append_nat (f : PyFloat) (hf : f.Canon) (b : Nat) :
    strToFloat (floatStr f ++ natToStr b) =
      some (mkFloat f.neg f.ip (normFrac (f.fp ++ natToDigs b))) := by
  have hfp2 : ∀ d ∈ f.fp ++ natToDigs b, d < 10 := by
    intro d hd
    rcases List.mem_append.mp hd with h | h
    · exact hf.1 d h
    · exact natToDigs_lt b d h
  have hshape : floatStr f ++ natToStr b =
      (if f.neg then ['-'] else ([] : PyStr)) ++
        ((natToDigs f.ip).map digChar ++ '.' :: (f.fp ++ natToDigs b).map digChar) := by
    simp [floatStr, natToStr, List.map_append, List.append_assoc]
  cases hneg : f.neg with
  | false =>
    rw [hneg] at hshape
    simp only [Bool.false_eq_true, if_false, List.nil_append] at hshape
    rw [hshape, strToFloat_digLists _ _ (natToDigs_lt f.ip) hfp2
      (natToDigs_ne_nil f.ip), digsVal_natToDigs]
  | true =>
    rw [hneg] at hshape
    simp only [if_true, List.singleton_append] at hshape
    rw [hshape, strToFloat_digLists_neg _ _ (natToDigs_lt f.ip) hfp2
      (natToDigs_ne_nil f.ip), digsVal_natToDigs]

theorem strToFloat_natToStr_append_floatStr (f : PyFloat) (hf : f.Canon)
    (hneg : f.neg = false) (b : Nat) :
    strToFloat (natToStr b ++ floatStr f) =
      some (mkFloat false (b * 10 ^ (natToDigs f.ip).length + f.ip)
        (normFrac f.fp)) := by
  have hip : ∀ d ∈ natToDigs b ++ natToDigs f.ip, d < 10 := by
    intro d hd
    rcases List.mem_append.mp hd with h | h
    · exact natToDigs_lt b d h
    · exact natToDigs_lt f.ip d h
  have hshape : natToStr b ++ floatStr f =
      (natToDigs b ++ natToDigs f.ip).map digChar ++ '.' :: f.fp.map digChar := by
    rw [floatStr, hneg]
    simp [natToStr, List.map_append, List.append_assoc]
  rw [hshape, strToFloat_digLists _ _ hip hf.1 (by simp [natToDigs_ne_nil b]),
    digsVal_append, digsVal_natToDigs, digsVal_natToDigs]

/-- C5 counterexample: in the Mimic variant, `append` on a key holding the
float `1.5` returns `True` but changes nothing: a subsequent get still
yields `1.5`, not the digit-concatenation `1.525` the claim requires for
the float case of both variants. -/
theorem spec_c5_cex :
    (MimicStash.append (MimicStash.set mimicEmpty 0 "x" (.flt ⟨false, 1, [5]⟩) (some 0)).2
        0 "x" (.intg 25) (some 0)).1 = .ok true ∧
    (MimicStash.getItem (MimicStash.append
        (MimicStash.set mimicEmpty 0 "x" (.flt ⟨false, 1, [5]⟩) (some 0)).2
        0 "x" (.intg 25) (some 0)).2 0 "x").1 =
      .ok (some (.flt ⟨false, 1, [5]⟩, 1)) ∧
    PyVal.flt ⟨false, 1, [5]⟩ ≠ PyVal.flt ⟨false, 1, [5, 2, 5]⟩ := by
  refine ⟨by decide, by decide, by decide⟩

/-- C5 (amended): append/prepend on numeric values is digit-string
concatenation — both operands rendered as decimal text, concatenated in
the appropriate order, re-parsed at the original type.  In the typed
variant this is proved universally for integers (appending `b` to `a`
stores `a * 10 ^ |digits b| + b`, e.g. `12 ++ 34 = 1234 ≠ 12 + 34`) and
for floats: for every stored float the new value is exactly the re-parse
of the concatenated decimal texts (with the parse failure raising, as the
coercion policy allows), and for integer arguments the result is computed
in closed form — appending `b` to a float extends its fraction digits by
the digits of `b`; prepending `b` to a non-negative float multiplies into
its integer part.  In the Mimic variant it is proved universally for
integers, for append and prepend (byte-level concatenation re-parsed on
read).  The exception forced by the counterexample is the Mimic float
case, where append and prepend return `True` while leaving the store
unchanged. -/
theorem spec_c5_amended :
    (∀ (st : StashState) now key t c (a b : Nat),
      (Stash.getItem st now key).1 = some (.intg (a : Int), c) → 0 < a →
      (Stash.append st now key (.intg (b : Int)) t).1 = .ok true ∧
      ∃ nw, (Stash.append st now key (.intg (b : Int)) t).2.cache key = some nw ∧
        nw.value = .intg ((a * 10 ^ (natToDigs b).length + b : Nat) : Int)) ∧
    (∀ (st : StashState) now key t c (a b : Nat),
      (Stash.getItem st now key).1 = some (.intg (a : Int), c) → 0 < a →
      (Stash.prepend st now key (.intg (b : Int)) t).1 = .ok true ∧
      ∃ nw, (Stash.prepend st now key (.intg (b : Int)) t).2.cache key = some nw ∧
        nw.value = .intg ((b * 10 ^ (natToDigs a).length + a : Nat) : Int)) ∧
    ((Stash.getItem (Stash.append (Stash.set stashEmpty 0 "n" (.intg 12) (some 0)).2
        0 "n" (.intg 34) (some 0)).2 0 "n").1 = some (.intg 1234, 2) ∧
      (1234 : Int) ≠ 12 + 34) ∧
    (∀ (st : StashState) now key v t c f,
      (Stash.getItem st now key).1 = some (.flt f, c) →
      PyVal.falsy (.flt f) = false →
      (∀ f2, strToFloat (floatStr f ++ pyStr v) = some f2 →
        (Stash.append st now key v t).1 = .ok true ∧
        ∃ nw, (Stash.append st now key v t).2.cache key = some nw ∧
          nw.value = .flt f2) ∧
      (strToFloat (floatStr f ++ pyStr v) = none →
        (Stash.append st now key v t).1 =
          .err (.valueError "cannot append non-numeric value to float"))) ∧
    (∀ (st : StashState) now key v t c f,
      (Stash.getItem st now key).1 = some (.flt f, c) →
      PyVal.falsy (.flt f) = false →
      (∀ f2, strToFloat (pyStr v ++ floatStr f) = some f2 →
        (Stash.prepend st now key v t).1 = .ok true ∧
        ∃ nw, (Stash.prepend st now key v t).2.cache key = some nw ∧
          nw.value = .flt f2) ∧
      (strToFloat (pyStr v ++ floatStr f) = none →
        (Stash.prepend st now key v t).1 =
          .err (.valueError "cannot prepend non-numeric value to float"))) ∧
    (∀ (st : StashState) now key t c f (b : Nat),
      (Stash.getItem st now key).1 = some (.flt f, c) →
      PyVal.falsy (.flt f) = false → f.Canon →
      (Stash.append st now key (.intg (b : Int)) t).1 = .ok true ∧
      ∃ nw, (Stash.append st now key (.intg (b : Int)) t).2.cache key = some nw ∧
        nw.value = .flt ⟨f.neg, f.ip, normFrac (f.fp ++ natToDigs b)⟩) ∧
    (∀ (st : StashState) now key t c f (b : Nat),
      (Stash.getItem st now key).1 = some (.flt f, c) →
      PyVal.falsy (.flt f) = false → f.Canon → f.neg = false →
      (Stash.prepend st now key (.intg (b : Int)) t).1 = .ok true ∧
      ∃ nw, (Stash.prepend st now key (.intg (b : Int)) t).2.cache key = some nw ∧
        nw.value = .flt ⟨false, b * 10 ^ (natToDigs f.ip).length + f.ip, f.fp⟩) ∧
    ((Stash.append (Stash.set stashEmpty 0 "f" (.flt ⟨false, 12, [3, 4]⟩) (some 0)).2
        0 "f" (.intg 45) (some 0)).2.cache "f" =
      some ⟨.flt ⟨false, 12, [3, 4, 4, 5]⟩, none, 2⟩) ∧
    ((Stash.prepend (Stash.set stashEmpty 0 "f" (.flt ⟨false, 12, [3, 4]⟩) (some 0)).2
        0 "f" (.intg 45) (some 0)).2.cache "f" =
      some ⟨.flt ⟨false, 4512, [3, 4]⟩, none, 2⟩) ∧
    (∀ (st : MimicState) now key t it (a b : Nat),
      st.cache key = some it → it.parse = .pInt → it.value = natToStr a →
      (MimicStash.append st now key (.intg (b : Int)) t).1 = .ok true ∧
      ∃ nw, (MimicStash.append st now key (.intg (b : Int)) t).2.cache key = some nw ∧
        nw.value = natToStr a ++ natToStr b ∧ nw.parse = .pInt ∧
        ParseTag.run .pInt nw.value =
          .ok (.intg ((a * 10 ^ (natToDigs b).length + b : Nat) : Int))) ∧
    (∀ (st : MimicState) now key t it (a b : Nat),
      st.cache key = some it → it.parse = .pInt → it.value = natToStr a →
      (MimicStash.prepend st now key (.intg (b : Int)) t).1 = .ok true ∧
      ∃ nw, (MimicStash.prepend st now key (.intg (b : Int)) t).2.cache key = some nw ∧
        nw.value = natToStr b ++ natToStr a ∧ nw.parse = .pInt ∧
        ParseTag.run .pInt nw.value =
          .ok (.intg ((b * 10 ^ (natToDigs a).length + a : Nat) : Int))) ∧
    (∀ (st : MimicState) now key v t it f,
      st.cache key = some it → it.parse = .pFloat → strToFloat it.value = some f →
      MimicStash.append st now key v t = (.ok true, st) ∧
      MimicStash.prepend st now key v t = (.ok true, st)) := by
  refine ⟨?_, ?_, ⟨by decide, by decide⟩, ?_, ?_, ?_, ?_, by decide, by decide,
    ?_, ?_, ?_⟩
  · intro st now key t c a b hg ha
    have hf : PyVal.falsy (.intg (a : Int)) = false := by
      simp [PyVal.falsy]
      omega
    have hp : strToInt (intStr (a : Int) ++ pyStr (.intg (b : Int))) =
        some ((a * 10 ^ (natToDigs b).length + b : Nat) : Int) := by
      rw [pyStr, intStr_natCast, intStr_natCast, strToInt_natToStr_append]
    refine ⟨by simp [Stash.append, hg, hf, hp, Stash.set], ?_⟩
    have hfin : (Stash.append st now key (.intg (b : Int)) t).2 =
        (Stash.set (Stash.getItem st now key).2 now key
          (.intg ((a * 10 ^ (natToDigs b).length + b : Nat) : Int)) t).2 := by
      simp [Stash.append, hg, hf, hp]
    rw [hfin, Stash.set_cache_key]
    exact ⟨_, rfl, rfl⟩
  · intro st now key t c a b hg ha
    have hf : PyVal.falsy (.intg (a : Int)) = false := by
      simp [PyVal.falsy]
      omega
    have hp : strToInt (pyStr (.intg (b : Int)) ++ intStr (a : Int)) =
        some ((b * 10 ^ (natToDigs a).length + a : Nat) : Int) := by
      rw [pyStr, intStr_natCast, intStr_natCast, strToInt_natToStr_append]
    refine ⟨by simp [Stash.prepend, hg, hf, hp, Stash.set], ?_⟩
    have hfin : (Stash.prepend st now key (.intg (b : Int)) t).2 =
        (Stash.set (Stash.getItem st now key).2 now key
          (.intg ((b * 10 ^ (natToDigs a).length + a : Nat) : Int)) t).2 := by
      simp [Stash.prepend, hg, hf, hp]
    rw [hfin, Stash.set_cache_key]
    exact ⟨_, rfl, rfl⟩
  · intro st now key v t c f hg hfl
    constructor
    · intro f2 hp
      refine ⟨by simp [Stash.append, hg, hfl, hp, Stash.set], ?_⟩
      have hfin : (Stash.append st now key v t).2 =
          (Stash.set (Stash.getItem st now key).2 now key (.flt f2) t).2 := by
        simp [Stash.append, hg, hfl, hp]
      rw [hfin, Stash.set_cache_key]
      exact ⟨_, rfl, rfl⟩
    · intro hp
      simp [Stash.append, hg, hfl, hp]
  · intro st now key v t c f hg hfl
    constructor
    · intro f2 hp
      refine ⟨by simp [Stash.prepend, hg, hfl, hp, Stash.set], ?_⟩
      have hfin : (Stash.prepend st now key v t).2 =
          (Stash.set (Stash.getItem st now key).2 now key (.flt f2) t).2 := by
        simp [Stash.prepend, hg, hfl, hp]
      rw [hfin, Stash.set_cache_key]
      exact ⟨_, rfl, rfl⟩
    · intro hp
      simp [Stash.prepend, hg, hfl, hp]
  · intro st now key t c f b hg hfl hcanon
    have hnz : f.ip ≠ 0 ∨ normFrac (f.fp ++ natToDigs b) ≠ [0] := by
      by_cases hip : f.ip = 0
      · right
        have hex : ∃ d ∈ f.fp, d ≠ 0 := by
          by_contra hall
          push_neg at hall
          have h2 : PyVal.falsy (.flt f) = true := by
            simp [PyVal.falsy, hip, List.all_eq_true]
            exact hall
          rw [h2] at hfl
          cases hfl
        obtain ⟨d, hd, hdnz⟩ := hex
        exact normFrac_ne_single_zero _ d (List.mem_append.mpr (Or.inl hd)) hdnz
      · left
        exact hip
    have hp : strToFloat (floatStr f ++ pyStr (.intg (b : Int))) =
        some (⟨f.neg, f.ip, normFrac (f.fp ++ natToDigs b)⟩ : PyFloat) := by
      rw [pyStr, intStr_natCast, strToFloat_floatStr_append_nat f hcanon b,
        mkFloat_eq_of_nonzero f.neg f.ip _ hnz]
    refine ⟨by simp [Stash.append, hg, hfl, hp, Stash.set], ?_⟩
    have hfin : (Stash.append st now key (.intg (b : Int)) t).2 =
        (Stash.set (Stash.getItem st now key).2 now key
          (.flt ⟨f.neg, f.ip, normFrac (f.fp ++ natToDigs b)⟩) t).2 := by
      simp [Stash.append, hg, hfl, hp]
    rw [hfin, Stash.set_cache_key]
    exact ⟨_, rfl, rfl⟩
  · intro st now key t c f b hg hfl hcanon hneg
    have hp : strToFloat (pyStr (.intg (b : Int)) ++ floatStr f) =
        some (⟨false, b * 10 ^ (natToDigs f.ip).length + f.ip, f.fp⟩ : PyFloat) := by
      rw [pyStr, intStr_natCast, strToFloat_natToStr_append_floatStr f hcanon hneg b,
        mkFloat_false, normFrac_canon f hcanon]
    refine ⟨by simp [Stash.prepend, hg, hfl, hp, Stash.set], ?_⟩
    have hfin : (Stash.prepend st now key (.intg (b : Int)) t).2 =
        (Stash.set (Stash.getItem st now key).2 now key
          (.flt ⟨false, b * 10 ^ (natToDigs f.ip).length + f.ip, f.fp⟩) t).2 := by
      simp [Stash.prepend, hg, hfl, hp]
    rw [hfin, Stash.set_cache_key]
    exact ⟨_, rfl, rfl⟩
  · intro st now key t it a b hc htag hval
    have hrun : it.parse.run it.value = .ok (.intg (a : Int)) := by
      rw [htag, hval, ParseTag.run, strToInt_natToStr]
    have hpy : pyStr (.intg (b : Int)) = natToStr b := by
      rw [pyStr, intStr_natCast]
    refine ⟨by simp [MimicStash.append, hc, hrun], ?_⟩
    have hfin : (MimicStash.append st now key (.intg (b : Int)) t).2.cache key =
        some ⟨it.value ++ pyStr (.intg (b : Int)), ttlExpires now t, it.parse,
          st.nextId⟩ := by
      simp [MimicStash.append, hc, hrun, mapSet]
    rw [hfin]
    refine ⟨_, rfl, by rw [hval, hpy], by rw [htag], ?_⟩
    rw [hval, hpy, ParseTag.run, strToInt_natToStr_append]
  · intro st now key t it a b hc htag hval
    have hrun : it.parse.run it.value = .ok (.intg (a : Int)) := by
      rw [htag, hval, ParseTag.run, strToInt_natToStr]
    have hpy : pyStr (.intg (b : Int)) = natToStr b := by
      rw [pyStr, intStr_natCast]
    refine ⟨by simp [MimicStash.prepend, hc, hrun], ?_⟩
    have hfin : (MimicStash.prepend st now key (.intg (b : Int)) t).2.cache key =
        some ⟨pyStr (.intg (b : Int)) ++ it.value, ttlExpires now t, it.parse,
          st.nextId⟩ := by
      simp [MimicStash.prepend, hc, hrun, mapSet]
    rw [hfin]
    refine ⟨_, rfl, by rw [hval, hpy], by rw [htag], ?_⟩
    rw [hval, hpy, ParseTag.run, strToInt_natToStr_append]
  · intro st now key v t it f hc htag hpf
    have hrun : it.parse.run it.value = .ok (.flt f) := by
      rw [htag, ParseTag.run, hpf]
    exact ⟨by simp [MimicStash.append, hc, hrun],
      by simp [MimicStash.prepend, hc, hrun]⟩

/-- C5 amended witness: the universal conjuncts instantiated concretely —
typed append and prepend on the stored integer 12 with argument 34, the
general and computed float forms on the stored float 12.34 with argument
45 (append and prepend), Mimic append and prepend on the stored integer
12, and the Mimic float no-op on the stored float 1.5. -/
theorem spec_c5_amended_witness :
    ((Stash.append (Stash.set stashEmpty 0 "n" (.intg 12) (some 0)).2
        0 "n" (.intg 34) (some 0)).1 = .ok true ∧
      ∃ nw, (Stash.append (Stash.set stashEmpty 0 "n" (.intg 12) (some 0)).2
          0 "n" (.intg 34) (some 0)).2.cache "n" = some nw ∧
        nw.value = .intg ((12 * 10 ^ (natToDigs 34).length + 34 : Nat) : Int)) ∧
    ((Stash.prepend (Stash.set stashEmpty 0 "n" (.intg 12) (some 0)).2
        0 "n" (.intg 34) (some 0)).1 = .ok true ∧
      ∃ nw, (Stash.prepend (Stash.set stashEmpty 0 "n" (.intg 12) (some 0)).2
          0 "n" (.intg 34) (some 0)).2.cache "n" = some nw ∧
        nw.value = .intg ((34 * 10 ^ (natToDigs 12).length + 12 : Nat) : Int)) ∧
    ((Stash.append (Stash.set stashEmpty 0 "f" (.flt ⟨false, 12, [3, 4]⟩) (some 0)).2
        0 "f" (.intg 45) (some 0)).1 = .ok true ∧
      ∃ nw, (Stash.append (Stash.set stashEmpty 0 "f" (.flt ⟨false, 12, [3, 4]⟩)
          (some 0)).2 0 "f" (.intg 45) (some 0)).2.cache "f" = some nw ∧
        nw.value = .flt ⟨false, 12, [3, 4, 4, 5]⟩) ∧
    (∃ nw, (Stash.append (Stash.set stashEmpty 0 "f" (.flt ⟨false, 12, [3, 4]⟩)
        (some 0)).2 0 "f" (.intg 45) (some 0)).2.cache "f" = some nw ∧
      nw.value = .flt ⟨false, 12, normFrac ([3, 4] ++ natToDigs 45)⟩) ∧
    (∃ nw, (Stash.prepend (Stash.set stashEmpty 0 "f" (.flt ⟨false, 12, [3, 4]⟩)
        (some 0)).2 0 "f" (.intg 45) (some 0)).2.cache "f" = some nw ∧
      nw.value = .flt ⟨false, 45 * 10 ^ (natToDigs 12).length + 12, [3, 4]⟩) ∧
    ((MimicStash.append (MimicStash.set mimicEmpty 0 "n" (.intg 12) (some 0)).2
        0 "n" (.intg 34) (some 0)).1 = .ok true) ∧
    ((MimicStash.prepend (MimicStash.set mimicEmpty 0 "n" (.intg 12) (some 0)).2
        0 "n" (.intg 34) (some 0)).1 = .ok true) ∧
    (MimicStash.append (MimicStash.set mimicEmpty 0 "x" (.flt ⟨false, 1, [5]⟩) (some 0)).2
        0 "x" (.intg 25) (some 0)) =
      (.ok true, (MimicStash.set mimicEmpty 0 "x" (.flt ⟨false, 1, [5]⟩) (some 0)).2) := by
  refine ⟨spec_c5_amended.1 _ 0 "n" (some 0) 1 12 34 (by decide) (by decide),
    spec_c5_amended.2.1 _ 0 "n" (some 0) 1 12 34 (by decide) (by decide),
    ((spec_c5_amended.2.2.2.1 _ 0 "f" (.intg 45) (some 0) 1 ⟨false, 12, [3, 4]⟩
      (by decide) (by decide)).1 ⟨false, 12, [3, 4, 4, 5]⟩ (by decide)),
    (spec_c5_amended.2.2.2.2.2.1 _ 0 "f" (some 0) 1 ⟨false, 12, [3, 4]⟩ 45
      (by decide) (by decide) (by decide)).2,
    (spec_c5_amended.2.2.2.2.2.2.1 _ 0 "f" (some 0) 1 ⟨false, 12, [3, 4]⟩ 45
      (by decide) (by decide) (by decide) rfl).2,
    (spec_c5_amended.2.2.2.2.2.2.2.2.2.1 _ 0 "n" (some 0)
      ⟨pyStr (.intg 12), none, .pInt, 1⟩ 12 34 (by decide) (by decide) (by decide)).1,
    (spec_c5_amended.2.2.2.2.2.2.2.2.2.2.1 _ 0 "n" (some 0)
      ⟨pyStr (.intg 12), none, .pInt, 1⟩ 12 34 (by decide) (by decide) (by decide)).1,
    (spec_c5_amended.2.2.2.2.2.2.2.2.2.2.2 _ 0 "x" (.intg 25) (some 0)
      ⟨pyStr (.flt ⟨false, 1, [5]⟩), none, .pFloat, 1⟩ ⟨false, 1, [5]⟩
      (by decide) (by decide) (by decide)).1⟩

/-- C9 counterexample: in the Mimic variant an opaque value does not
round-trip: it is stored as its `str` rendering with the text parse
closure, so get returns a *text* value, not the original opaque one. -/
theorem spec_c9_cex :
    (MimicStash.getItem (MimicStash.set mimicEmpty 0 "k"
        (.other true ['[', '1', ']']) (some 0)).2 0 "k").1 =
      .ok (some (.text ['[', '1', ']'], 1)) ∧
    PyVal.text ['[', '1', ']'] ≠ PyVal.other true ['[', '1', ']'] := by
  exact ⟨by decide, by decide⟩

/-- C9 (amended): after `Set(key, v, 0)` a get returns exactly `v` in the
typed variant for every value kind (text, integer, float, opaque), and in
the Mimic variant for text, integer and float values (floats through the
`repr`/`float` round trip of their canonical decimal form); the exception
forced by the counterexample is the opaque case of the Mimic variant,
which comes back as the text `str(v)`. -/
theorem spec_c9_amended :
    (∀ (st : StashState) now now2 key v,
      (Stash.getItem (Stash.set st now key v (some 0)).2 now2 key).1 =
        some (v, st.nextId)) ∧
    (∀ (st : MimicState) now now2 key s,
      (MimicStash.getItem (MimicStash.set st now key (.text s) (some 0)).2 now2 key).1 =
        .ok (some (.text s, st.nextId))) ∧
    (∀ (st : MimicState) now now2 key n,
      (MimicStash.getItem (MimicStash.set st now key (.intg n) (some 0)).2 now2 key).1 =
        .ok (some (.intg n, st.nextId))) ∧
    (∀ (st : MimicState) now now2 key f, f.Canon →
      (MimicStash.getItem (MimicStash.set st now key (.flt f) (some 0)).2 now2 key).1 =
        .ok (some (.flt f, st.nextId))) ∧
    (∀ (st : MimicState) now now2 key tr r,
      (MimicStash.getItem (MimicStash.set st now key (.other tr r) (some 0)).2
          now2 key).1 =
        .ok (some (.text r, st.nextId))) := by
  refine ⟨?_, ?_, ?_, ?_, ?_⟩
  · intro st now now2 key v
    have hc : (Stash.set st now key v (some 0)).2.cache key =
        some ⟨v, none, st.nextId⟩ := by
      simp [Stash.set, mapSet, ttlExpires]
    simp [Stash.getItem, hc]
  · intro st now now2 key s
    have hc : (MimicStash.set st now key (.text s) (some 0)).2.cache key =
        some ⟨s, none, .pText, st.nextId⟩ := by
      simp [MimicStash.set, mapSet, ttlExpires, pyStr]
    simp [MimicStash.getItem, hc, ParseTag.run]
  · intro st now now2 key n
    have hc : (MimicStash.set st now key (.intg n) (some 0)).2.cache key =
        some ⟨intStr n, none, .pInt, st.nextId⟩ := by
      simp [MimicStash.set, mapSet, ttlExpires, pyStr]
    simp [MimicStash.getItem, hc, ParseTag.run, strToInt_intStr]
  · intro st now now2 key f hf
    have hc : (MimicStash.set st now key (.flt f) (some 0)).2.cache key =
        some ⟨floatStr f, none, .pFloat, st.nextId⟩ := by
      simp [MimicStash.set, mapSet, ttlExpires, pyStr]
    simp [MimicStash.getItem, hc, ParseTag.run, strToFloat_floatStr f hf]
  · intro st now now2 key tr r
    have hc : (MimicStash.set st now key (.other tr r) (some 0)).2.cache key =
        some ⟨r, none, .pText, st.nextId⟩ := by
      simp [MimicStash.set, mapSet, ttlExpires, pyStr]
    simp [MimicStash.getItem, hc, ParseTag.run]

/-- C9 amended witness: the float conjunct instantiated at the canonical
float 1.5, plus the typed round trip of an opaque value. -/
theorem spec_c9_amended_witness :
    (MimicStash.getItem (MimicStash.set mimicEmpty 3 "k"
        (.flt ⟨false, 1, [5]⟩) (some 0)).2 9 "k").1 =
      .ok (some (.flt ⟨false, 1, [5]⟩, 1)) ∧
    (Stash.getItem (Stash.set stashEmpty 3 "k"
        (.other true ['[', '1', ']']) (some 0)).2 9 "k").1 =
      some (.other true ['[', '1', ']'], 1) := by
  exact ⟨spec_c9_amended.2.2.2.1 mimicEmpty 3 9 "k" ⟨false, 1, [5]⟩ (by decide),
    spec_c9_amended.1 stashEmpty 3 9 "k" (.other true ['[', '1', ']'])⟩
